import Mathlib

/-!
Verification of the pdf_parser service of the personal-finance-manager
repository: a shallow embedding in Lean 4 of the statement-detection and
extraction engine (multi-signal detector, locale number normalisation,
doubled-character collapse, per-institution line parsers, currency-section
splitter, generic fallback extractor), together with theorems settling the
specification claims.

Python floats are modelled as exact rationals (every numeric literal that
the claims touch is exactly representable); Python `datetime.date` is
modelled by a validated triple; Python strings are Lean `String`s (the
embedded code manipulates `List Char`).  Fallible Python code is modelled
with `Option`/`Except`.  Each regular expression of the source is embedded
as an explicit executable matcher transliterating the pattern.
-/

namespace PdfParser

/-! ## Basic character helpers -/

/-- ASCII decimal digit test, the `\d` class of the source's regexes
(Python `re` on `str` also matches Unicode digits; the documents at hand
are ASCII-digit only). -/
def isDig (c : Char) : Bool := '0' ≤ c && c ≤ '9'

/-- Character upper-casing as performed by Python `str.upper`, restricted
to ASCII letters plus the accented Spanish letters that occur in the
source's detector signals. -/
def pyUpperChar (c : Char) : Char :=
  if 'a' ≤ c && c ≤ 'z' then Char.ofNat (c.toNat - 32)
  else if c = 'á' then 'Á' else if c = 'é' then 'É'
  else if c = 'í' then 'Í' else if c = 'ó' then 'Ó'
  else if c = 'ú' then 'Ú' else if c = 'ñ' then 'Ñ'
  else if c = 'ü' then 'Ü' else c

/-- Python `str.upper` on a character list. -/
def pyUpper (s : List Char) : List Char := s.map pyUpperChar

/-- Whitespace test for the `\s` class and for `str.split()` /
`str.strip()` (space, tab, newline, carriage return, form feed,
vertical tab). -/
def isWS (c : Char) : Bool :=
  c = ' ' || c = '\t' || c = '\n' || c = '\r' || c = '\x0c' || c = '\x0b'

/-- Word-character test for the `\b` boundary (`[A-Za-z0-9_]` plus the
accented letters the documents use; Python's Unicode `\w` restricted to
the relevant alphabet). -/
def isWordChar (c : Char) : Bool :=
  isDig c || ('a' ≤ c && c ≤ 'z') || ('A' ≤ c && c ≤ 'Z') || c = '_' ||
  c ∈ ['á', 'é', 'í', 'ó', 'ú', 'ñ', 'ü', 'Á', 'É', 'Í', 'Ó', 'Ú', 'Ñ', 'Ü']

/-- Python `str.strip()` on a character list. -/
def pyStrip (s : List Char) : List Char :=
  (s.dropWhile isWS).reverse.dropWhile isWS |>.reverse

/-- Python `sub in s` substring containment. -/
def containsSub (s sub : List Char) : Bool :=
  if sub.isPrefixOf s then true
  else match s with
    | [] => sub.isEmpty
    | _ :: t => containsSub t sub

/-- Python `s.replace(old, "")` for a single unwanted character. -/
def removeChar (c : Char) (s : List Char) : List Char := s.filter (· ≠ c)

/-- Decomposition of a line into its maximal runs of whitespace and of
non-whitespace characters, in order. -/
def wsRuns : List Char → List (List Char)
  | [] => []
  | c :: t => go t [c] (isWS c)
where
  /-- Run builder: `cur` is the current run reversed, `k` its kind. -/
  go : List Char → List Char → Bool → List (List Char)
    | [], cur, _ => [cur.reverse]
    | c :: t, cur, k =>
        if isWS c = k then go t (c :: cur) k
        else cur.reverse :: go t [c] (isWS c)

/-- Python `str.split()` with no argument: split on whitespace runs,
dropping empty fields (the non-whitespace runs of the line). -/
def pySplitWS (s : List Char) : List (List Char) :=
  (wsRuns s).filter (fun r => match r with | [] => false | c :: _ => !isWS c)

/-! ## Exact decimal values

Python `float(...)` applied to the decimal strings produced by the
normalisers.  All values the claims compare are exactly representable, so
the embedding uses `ℚ`. -/

/-- Numeric value of a digit list read in base 10. -/
def digitsNum (l : List Char) : ℕ :=
  l.foldl (fun a c => a * 10 + (c.toNat - 48)) 0

/-- Python `float(s)` on an optionally signed decimal string
(`[-+]? \d* (\.\d*)?`, at least one digit overall — the only shapes the
embedded normalisers ever produce), as an exact rational; `none` models
`ValueError`. -/
def pyFloat (s : List Char) : Option ℚ :=
  let neg := s.headD ' ' = '-'
  let s := if neg || s.headD ' ' = '+' then s.tail else s
  let ip := s.takeWhile isDig
  let rest := s.drop ip.length
  let fp := rest.tail
  let restOk := rest.isEmpty || (rest.headD ' ' = '.' && fp.all isDig)
  if restOk && !(ip.isEmpty && fp.isEmpty) then
    let mag : ℚ := mkRat (digitsNum ip * 10 ^ fp.length + digitsNum fp : ℕ) (10 ^ fp.length)
    some (if neg then -mag else mag)
  else none

/-! ## Python dates -/

/-- A `datetime.date`: components already validated. -/
structure PyDate where
  year : ℕ
  month : ℕ
  day : ℕ
deriving DecidableEq, Repr

/-- Gregorian leap-year test (Python `calendar.isleap`). -/
def isLeap (y : ℕ) : Bool := (y % 4 = 0 && y % 100 ≠ 0) || y % 400 = 0

/-- Days in a month, as validated by the `datetime.date` constructor. -/
def daysInMonth (y m : ℕ) : ℕ :=
  if m = 2 then (if isLeap y then 29 else 28)
  else if m ∈ [4, 6, 9, 11] then 30
  else 31

/-- The `datetime.date(y, m, d)` constructor; `none` models the
`ValueError` raised on out-of-range components. -/
def mkDate (y m d : ℕ) : Option PyDate :=
  if 1 ≤ y && y ≤ 9999 && 1 ≤ m && m ≤ 12 && 1 ≤ d && d ≤ daysInMonth y m then
    some ⟨y, m, d⟩
  else none

/-! ## Data model (`models.py`) -/

inductive StatementType where
  | savings
  | credit_card
  | loan
deriving DecidableEq, Repr

inductive TransactionDirection where
  | inflow
  | outflow
deriving DecidableEq, Repr

structure ParsedTransaction where
  date : PyDate
  description : String
  amount : ℚ
  direction : TransactionDirection
  balance : Option ℚ := none
  currency : String := "COP"
  authorization_number : Option String := none
  installment_current : Option ℤ := none
  installment_total : Option ℤ := none
deriving DecidableEq, Repr

structure StatementSummary where
  previous_balance : Option ℚ := none
  total_credits : Option ℚ := none
  total_debits : Option ℚ := none
  final_balance : Option ℚ := none
  purchases_and_charges : Option ℚ := none
  interest_charged : Option ℚ := none
deriving DecidableEq, Repr

structure CreditCardMetadata where
  credit_limit : Option ℚ := none
  available_credit : Option ℚ := none
  interest_rate : Option ℚ := none
  late_interest_rate : Option ℚ := none
  total_payment_due : Option ℚ := none
  minimum_payment : Option ℚ := none
  payment_due_date : Option PyDate := none
deriving DecidableEq, Repr

structure LoanMetadata where
  loan_number : Option String := none
  loan_type : Option String := none
  initial_amount : Option ℚ := none
  disbursement_date : Option PyDate := none
  remaining_balance : Option ℚ := none
  interest_rate : Option ℚ := none
  late_interest_rate : Option ℚ := none
  total_payment_due : Option ℚ := none
  minimum_payment : Option ℚ := none
  payment_due_date : Option PyDate := none
  installments_in_default : Option ℤ := none
  statement_cut_date : Option PyDate := none
  last_payment_date : Option PyDate := none
deriving DecidableEq, Repr

structure ParsedStatement where
  bank : String := "bancolombia"
  statement_type : StatementType
  account_number : Option String := none
  card_last_four : Option String := none
  period_from : Option PyDate := none
  period_to : Option PyDate := none
  currency : String := "COP"
  summary : Option StatementSummary := none
  credit_card_metadata : Option CreditCardMetadata := none
  loan_metadata : Option LoanMetadata := none
  transactions : List ParsedTransaction
deriving DecidableEq, Repr

/-- The `ParsedTransaction` pydantic constructor as called with the extra
keyword `installments=...` by the Falabella and Bancolombia credit-card
parsers: pydantic v2's default `extra="ignore"` configuration silently
drops a keyword that matches no declared field, so the argument does not
reach the model. -/
def mkTransactionWithInstallmentsKw (date : PyDate) (description : String)
    (amount : ℚ) (direction : TransactionDirection) (balance : Option ℚ)
    (currency : String) (authorization_number : Option String)
    (_installments : Option String) : ParsedTransaction :=
  { date := date, description := description, amount := amount,
    direction := direction, balance := balance, currency := currency,
    authorization_number := authorization_number }

/-! ## `parsers/utils.py` -/

/-- `utils.resolve_year`: resolve a transaction year from its month and
the statement period, handling the December-to-January boundary. -/
def resolve_year (tx_month : ℕ) (from_date to_date : PyDate) : ℕ :=
  if from_date.year = to_date.year then from_date.year
  else if tx_month ≥ from_date.month then from_date.year
  else to_date.year

end PdfParser

namespace BancolombiaSavings

open PdfParser

/-- `bancolombia_savings._resolve_year`, the (textually identical)
private copy of the year-resolution rule. -/
def resolveYearSavings (tx_month : ℕ) (from_date to_date : PyDate) : ℕ :=
  if from_date.year = to_date.year then from_date.year
  else if tx_month ≥ from_date.month then from_date.year
  else to_date.year

end BancolombiaSavings

namespace Falabella

open PdfParser

/-- `falabella_credit_card._dedup_token`: collapse a token when every
adjacent character pair across its full (even) length is doubled. -/
def dedupToken (token : List Char) : List Char :=
  let n := token.length
  if n ≥ 2 && n % 2 = 0 && pairsDoubled token then everySecond token
  else token
where
  /-- The `all(token[i] == token[i+1] for i in range(0, n, 2))` check. -/
  pairsDoubled : List Char → Bool
    | [] => true
    | [_] => true
    | a :: b :: t => a = b && pairsDoubled t
  /-- The `token[::2]` slice. -/
  everySecond : List Char → List Char
    | [] => []
    | [a] => [a]
    | a :: _ :: t => a :: everySecond t

/-- `falabella_credit_card._normalize_line`: split preserving whitespace
runs (`re.split(r"(\\s+)", line)` — its parts are the alternating maximal
non-whitespace and whitespace runs, plus empty boundary strings, which
`_dedup_token` maps to themselves), collapse each part with
`_dedup_token`, reassemble. -/
def normalizeLine (line : List Char) : List Char :=
  (wsRuns line).foldr (fun part acc => dedupToken part ++ acc) []

end Falabella

namespace PdfParser

/-! ## Locale number normalisation helpers shared by the embeddings -/

/-- Python `s.count(c)`. -/
def countChar (c : Char) (s : List Char) : ℕ := (s.filter (· = c)).length

/-- Python `len(s) - s.rfind(c) - 1`: the number of characters after the
last occurrence of `c` (equal to `len(s)` when `c` is absent, as
`rfind` then returns `-1`). -/
def charsAfterLast (c : Char) (s : List Char) : ℕ :=
  (s.reverse.takeWhile (· ≠ c)).length

/-- Python `s.rfind(",") > s.rfind(".")` for a string containing both: the
last comma sits to the right of the last dot. -/
def lastCommaAfterLastDot (s : List Char) : Bool :=
  s.reverse.findIdx (· = ',') < s.reverse.findIdx (· = '.')

/-- Python `s.replace(a, b)` for single characters. -/
def replaceChar (a b : Char) (s : List Char) : List Char :=
  s.map (fun c => if c = a then b else c)

end PdfParser

namespace OpendataFallback

open PdfParser

/-- `opendataloader_fallback._parse_mixed_number`: strip `$` and spaces,
take an optional leading minus, then decide the separator roles — both
separators present: the rightmost is the decimal point; comma only:
decimal comma exactly when there is one comma with exactly two digits
after it; dot only: decimal point exactly when there is one dot with
exactly two digits after it; then `float(...)` (its `ValueError` is
`none`). -/
def parseMixedNumber (raw : List Char) : Option ℚ :=
  let s := pyStrip (removeChar ' ' (removeChar '$' raw))
  if s.isEmpty then some 0
  else
    let neg := s.headD ' ' = '-'
    let s := if neg then s.tail else s
    let hasComma := s.contains ','
    let hasDot := s.contains '.'
    let normalized :=
      if hasComma && hasDot then
        if lastCommaAfterLastDot s then replaceChar ',' '.' (removeChar '.' s)
        else removeChar ',' s
      else if hasComma then
        if countChar ',' s > 1 || charsAfterLast ',' s ≠ 2 then removeChar ',' s
        else replaceChar ',' '.' s
      else if hasDot then
        if countChar '.' s > 1 || charsAfterLast '.' s ≠ 2 then removeChar '.' s
        else s
      else s
    (pyFloat normalized).map (fun v => if neg then -v else v)

end OpendataFallback

namespace Confiar

open PdfParser

/-- The `re.fullmatch(r"\.?\d{1,2}", s)` test of
`confiar_credit_card._parse_num`: an optional leading dot followed by one
or two digits. -/
def optDotOneTwoDigits (s : List Char) : Bool :=
  let t := if s.headD ' ' = '.' then s.tail else s
  1 ≤ t.length && t.length ≤ 2 && t.all isDig

/-- `confiar_credit_card._parse_num`: strip `$`, `%` and spaces; empty or
bare separator tokens give `0.0`; a token that is an optional dot plus one
or two digits is read as those digits (`float(s.lstrip(".") or "0")`);
otherwise the separator roles are decided as in the mixed-number rule,
except that a single dot is the decimal point whenever at most two digits
follow it. -/
def parseNum (raw : List Char) : Option ℚ :=
  let s := removeChar ' ' (removeChar '%' (removeChar '$' (pyStrip raw)))
  if s.isEmpty || s = ['.'] || s = [','] || s = ['-'] then some 0
  else if optDotOneTwoDigits s then
    let t := s.dropWhile (· = '.')
    pyFloat (if t.isEmpty then ['0'] else t)
  else
    let hasComma := s.contains ','
    let hasDot := s.contains '.'
    if hasComma && !hasDot then
      if countChar ',' s > 1 || charsAfterLast ',' s ≠ 2 then
        pyFloat (removeChar ',' s)
      else pyFloat (replaceChar ',' '.' s)
    else if hasDot && !hasComma then
      if countChar '.' s > 1 || charsAfterLast '.' s > 2 then
        pyFloat (removeChar '.' s)
      else pyFloat s
    else if hasComma && hasDot then
      if lastCommaAfterLastDot s then
        pyFloat (replaceChar ',' '.' (removeChar '.' s))
      else pyFloat (removeChar ',' s)
    else pyFloat s

end Confiar

namespace Spec

open PdfParser

/-- Year-resolution rule as the specification words it: same calendar year
means that year; across a December-to-January boundary, a transaction month
below the period's start month belongs to the end year, any other month to
the start year. -/
def yearRule (m : ℕ) (from_date to_date : PyDate) : ℕ :=
  if from_date.year = to_date.year then from_date.year
  else if m < from_date.month then to_date.year
  else from_date.year

/-- The fully-doubled condition as the specification words it: even length
and `token[i] == token[i+1]` at every pair position `i = 0, 2, 4, ...`. -/
def fullyDoubled (t : List Char) : Bool :=
  t.length % 2 = 0 &&
    (List.range (t.length / 2)).all
      (fun i => t.getD (2 * i) ' ' = t.getD (2 * i + 1) ' ')

/-- The collapsed half-length token as the specification words it: the
first character of each adjacent pair. -/
def halfToken (t : List Char) : List Char :=
  (List.range ((t.length + 1) / 2)).map (fun i => t.getD (2 * i) ' ')

/-- The value of a dot-only numeric token read with its (first) dot as
the decimal point, as the specification words it; `none` when there are
no digits at all. -/
def dotAsDecimal (tok : List Char) : Option ℚ :=
  let ip := tok.takeWhile (· ≠ '.')
  let fp := tok.drop (ip.length + 1)
  if ip.isEmpty && fp.isEmpty then none
  else some (mkRat (digitsNum ip * 10 ^ fp.length + digitsNum fp : ℕ) (10 ^ fp.length))

/-- The value of a dot-only numeric token read with every dot as a
thousands separator, as the specification words it; `none` when there are
no digits at all. -/
def dotsStripped (tok : List Char) : Option ℚ :=
  let ds := removeChar '.' tok
  if ds.isEmpty then none else some (mkRat (digitsNum ds) 1)

/-- A dot-only numeric token: nonempty, made of digits and dots, with at
least one dot (the shape quantified over by the dot-only normalisation
claim). -/
abbrev DotOnlyToken (tok : List Char) : Prop :=
  tok ≠ [] ∧ (∀ c ∈ tok, isDig c = true ∨ c = '.') ∧ tok.contains '.' = true

/-- The claim's dot-only rule: a single dot with at most two digits after
it is the decimal point, otherwise every dot is a thousands separator. -/
def dotOnlyRuleAtMostTwo (tok : List Char) : Option ℚ :=
  if countChar '.' tok = 1 ∧ charsAfterLast '.' tok ≤ 2 then dotAsDecimal tok
  else dotsStripped tok

/-- The claim as stated, for one normaliser: on every dot-only numeric
token it follows the at-most-two-digits dot rule. -/
def DotOnlyClaimHolds (f : List Char → Option ℚ) : Prop :=
  ∀ tok : List Char, DotOnlyToken tok → f tok = dotOnlyRuleAtMostTwo tok

end Spec

namespace PdfParser

/-! ## Regex matching

Each regular expression of the source is embedded as a list of pattern
items, matched by an explicit backtracking matcher with Python `re`
semantics (greedy bounded repetition of a character class, literal
runs, leftmost search). -/

/-- One item of an embedded pattern: a literal string, or a greedy
character-class repetition with a lower and optional upper bound. -/
inductive PItem where
  | lit (s : List Char)
  | cls (p : Char → Bool) (lo : ℕ) (hi : Option ℕ)

/-- Try repetition counts from `k` downwards (greedy) until the
continuation succeeds; counts below `lo` fail. -/
def tryCount (cont : List Char → Option (List Char)) (s : List Char)
    (lo : ℕ) : ℕ → Option (List Char)
  | 0 => if lo = 0 then cont s else none
  | k + 1 =>
      if k + 1 < lo then none
      else
        match cont (s.drop (k + 1)) with
        | some r => some r
        | none => tryCount cont s lo k

/-- Match a pattern against a prefix of `s`, returning the remainder on
success. -/
def matchItems : List PItem → List Char → Option (List Char)
  | [], s => some s
  | .lit cs :: rest, s =>
      if cs.isPrefixOf s then matchItems rest (s.drop cs.length) else none
  | .cls p lo hi :: rest, s =>
      let run := (s.takeWhile p).length
      tryCount (matchItems rest) s lo (min run (hi.getD run))

/-- Python `re.search` as a Boolean: the pattern matches starting at some
position of `s`. -/
def searchItems (items : List PItem) : List Char → Bool
  | [] => (matchItems items []).isSome
  | s@(_ :: t) => (matchItems items s).isSome || searchItems items t

/-- A literal pattern item. -/
def pLit (s : String) : PItem := .lit s.data

/-- The `\s*` item. -/
def pWS0 : PItem := .cls isWS 0 none

/-- The `\s+` item. -/
def pWS1 : PItem := .cls isWS 1 none

/-- The `\d{n}` item. -/
def pDigN (n : ℕ) : PItem := .cls isDig n (some n)

/-- The `\d+` item. -/
def pDig1 : PItem := .cls isDig 1 none

/-- The `\d{n,}` item. -/
def pDigAtLeast (n : ℕ) : PItem := .cls isDig n none

/-- The `\b\d{16}\b` search of the Banco Popular detector: a run of
exactly sixteen digits delimited by word boundaries. -/
def searchSixteenDigits (s : List Char) : Bool :=
  go none s
where
  /-- Position scan carrying the previous character for the left
  boundary. -/
  go : Option Char → List Char → Bool
    | _, [] => false
    | prev, c :: t =>
        let leftOk := match prev with
          | none => true
          | some p => !isWordChar p
        let ds := ((c :: t).takeWhile isDig).length
        let rightOk := !isWordChar (((c :: t).drop 16).headD ' ')
        (leftOk && ds = 16 && rightOk) || go (some c) t

/-- Greedy repetition for the span-returning matcher: try counts from
`k` downwards until the continuation succeeds; counts below `lo` fail. -/
def tryCountG (cont : List Char → Option (List (List Char) × List Char))
    (s : List Char) (lo : ℕ) : ℕ → Option (List (List Char) × List Char)
  | 0 => if lo = 0 then
      match cont s with
      | some (sp, r) => some ([] :: sp, r)
      | none => none
    else none
  | k + 1 =>
      if k + 1 < lo then none
      else
        match cont (s.drop (k + 1)) with
        | some (sp, r) => some (s.take (k + 1) :: sp, r)
        | none => tryCountG cont s lo k

/-- Like `matchItems`, also returning the characters each item matched,
in order (for reassembling capture groups). -/
def matchItemsG : List PItem → List Char → Option (List (List Char) × List Char)
  | [], s => some ([], s)
  | .lit cs :: rest, s =>
      if cs.isPrefixOf s then
        match matchItemsG rest (s.drop cs.length) with
        | some (sp, r) => some (cs :: sp, r)
        | none => none
      else none
  | .cls p lo hi :: rest, s =>
      let run := (s.takeWhile p).length
      tryCountG (matchItemsG rest) s lo (min run (hi.getD run))

/-- Match of `\d{2}/\d{2}/\d{4}` at the head of `s`: the ten matched
characters and the remaining suffix. -/
def matchDate10 (s : List Char) : Option (List Char × List Char) :=
  match s with
  | d1 :: d2 :: s1 :: m1 :: m2 :: s2 :: y1 :: y2 :: y3 :: y4 :: rest =>
      if isDig d1 && isDig d2 && s1 = '/' && isDig m1 && isDig m2 && s2 = '/'
          && isDig y1 && isDig y2 && isDig y3 && isDig y4 then
        some ([d1, d2, s1, m1, m2, s2, y1, y2, y3, y4], rest)
      else none
  | _ => none

/-- `re.search` of `(\d{2}/\d{2}/\d{4})`: leftmost match, returning the
text before the match, the matched date, and the text after it. -/
def searchDate10 : List Char → Option (List Char × List Char × List Char)
  | [] => none
  | c :: t =>
      match matchDate10 (c :: t) with
      | some (g1, rest) => some ([], g1, rest)
      | none =>
          match searchDate10 t with
          | some (b, g, a) => some (c :: b, g, a)
          | none => none

/-- Python `str.split(sep)` for a one-character separator, keeping empty
fields. -/
def splitOnChar (c : Char) : List Char → List (List Char)
  | [] => [[]]
  | x :: t =>
      if x = c then [] :: splitOnChar c t
      else
        match splitOnChar c t with
        | [] => [[x]]
        | h :: r => (x :: h) :: r

/-- `re.search` with spans: the spans of the leftmost match. -/
def searchItemsG (items : List PItem) : List Char → Option (List (List Char))
  | [] => (matchItemsG items []).map Prod.fst
  | s@(_ :: t) =>
      match matchItemsG items s with
      | some (sp, _) => some sp
      | none => searchItemsG items t

/-- Greedy repetition for the end-anchored matcher. -/
def tryCountA (cont : List Char → Option (List (List Char)))
    (s : List Char) (lo : ℕ) : ℕ → Option (List (List Char))
  | 0 => if lo = 0 then (cont s).map ([] :: ·) else none
  | k + 1 =>
      if k + 1 < lo then none
      else
        match cont (s.drop (k + 1)) with
        | some sp => some (s.take (k + 1) :: sp)
        | none => tryCountA cont s lo k

/-- Match a pattern against the whole of `s` (a trailing `$` anchor),
with the same backtracking order. -/
def matchItemsGEnd : List PItem → List Char → Option (List (List Char))
  | [], s => if s.isEmpty then some [] else none
  | .lit cs :: rest, s =>
      if cs.isPrefixOf s then (matchItemsGEnd rest (s.drop cs.length)).map (cs :: ·)
      else none
  | .cls p lo hi :: rest, s =>
      let run := (s.takeWhile p).length
      tryCountA (matchItemsGEnd rest) s lo (min run (hi.getD run))

/-- `re.search` of an end-anchored pattern: the leftmost match's start
position and item spans. -/
def searchItemsGEnd (items : List PItem) : List Char → Option (ℕ × List (List Char))
  | [] => (matchItemsGEnd items []).map (fun sp => (0, sp))
  | s@(_ :: t) =>
      match matchItemsGEnd items s with
      | some sp => some (0, sp)
      | none => (searchItemsGEnd items t).map (fun p => (p.1 + 1, p.2))

/-- Greedy `\d{lo,hi}` with continuation backtracking on the count. -/
def tryDigCount (s : List Char) (lo hi : ℕ) (cont : ℕ → Option α) : Option α :=
  go (min (s.takeWhile isDig).length hi)
where
  /-- Counts from `n` downwards. -/
  go : ℕ → Option α
    | 0 => if lo = 0 then cont 0 else none
    | n + 1 =>
        if n + 1 < lo then none
        else
          match cont (n + 1) with
          | some r => some r
          | none => go n

/-! ## The detector registry (`parsers/__init__.py`, `DETECTORS`) -/

/-- One registry entry: its name, its weighted signals, and the calling
convention of its `parse` lambda — every lambda passes the keyword
argument `password=pw`, and `targetAcceptsPassword` records whether the
target parse function declares a `password` parameter (Python raises
`TypeError` when it does not). -/
structure DetectorEntry where
  name : String
  signals : List (ℕ × (List Char → Bool))
  targetAcceptsPassword : Bool

/-- The signals of the `bancolombia_savings` entry. -/
def bancolombiaSavingsSignals : List (ℕ × (List Char → Bool)) :=
  [ (3, fun t => containsSub t "BANCOLOMBIA".data),
    (3, fun t => containsSub t "CUENTA DE AHORROS".data),
    (5, fun t => searchItems
      [pLit "DESDE:", pWS0, pDigN 4, pLit "/", pDigN 2, pLit "/", pDigN 2,
       pWS1, pLit "HASTA:"] t),
    (4, fun t => containsSub t "SALDO ANTERIOR".data &&
      containsSub t "TOTAL ABONOS".data),
    (4, fun t => searchItems [pLit "NÚMERO", pWS1, pDig1] t) ]

/-- The signals of the `bancolombia_credit_card` entry. -/
def bancolombiaCreditCardSignals : List (ℕ × (List Char → Bool)) :=
  [ (3, fun t => containsSub t "BANCOLOMBIA".data),
    (5, fun t => searchItems
      [pLit "TARJETA:", pWS0, .cls (· = '*') 1 none, pDigN 4] t),
    (5, fun t => searchItems [pLit "ESTADO DE CUENTA EN", pWS0, pLit ":"] t),
    (3, fun t => containsSub t "NUEVOS MOVIMIENTOS".data) ]

/-- The signals of the `bancolombia_loan` entry. -/
def bancolombiaLoanSignals : List (ℕ × (List Char → Bool)) :=
  [ (3, fun t => containsSub t "BANCOLOMBIA".data),
    (5, fun t => searchItems [pLit "OBLIGACIÓN", pWS1, pLit "Nº:", pWS0, pDig1] t),
    (4, fun t => containsSub t "LÍNEA DE CRÉDITO".data),
    (4, fun t => containsSub t "INFORMACIÓN DEL CRÉDITO".data) ]

/-- The signals of the `nu_credit_card` entry. -/
def nuCreditCardSignals : List (ℕ × (List Char → Bool)) :=
  [ (3, fun t => containsSub t "NU FINANCIERA".data ||
      containsSub t "NU COLOMBIA".data || containsSub t "NUBANK".data),
    (5, fun t => containsSub t "•".data &&
      searchItems [pLit "•", pWS0, pDigN 4] t),
    (5, fun t => searchItems [pLit "PERIODO", pWS1, pLit "FACTURADO"] t),
    (4, fun t => containsSub t "TU CUPO DEFINIDO".data) ]

/-- The signals of the `lulo_loan` entry. -/
def luloLoanSignals : List (ℕ × (List Char → Bool)) :=
  [ (3, fun t => containsSub t "LULO BANK".data),
    (5, fun t => searchItems
      [pDigAtLeast 11, pWS1, pDig1, pWS1, pLit "DE", pWS1, pDig1] t),
    (4, fun t => containsSub t "MONTO SOLICITADO".data),
    (4, fun t => containsSub t "MIS PAGOS".data) ]

/-- The signals of the `davivienda_loan` entry. -/
def daviviendaLoanSignals : List (ℕ × (List Char → Bool)) :=
  [ (3, fun t => containsSub t "DAVIVIENDA".data),
    (5, fun t => searchItems
      [pLit "NO", pWS1, pLit "DEL", pWS1, pLit "CRÉDITO:", pWS0,
       .cls (fun c => isDig c || c = '-') 1 none] t),
    (5, fun t => searchItems [pLit "PÁGUESE", pWS1, pLit "ANTES", pWS1, pLit "DEL"] t) ]

/-- The signals of the `popular_credit_card` entry. -/
def popularCreditCardSignals : List (ℕ × (List Char → Bool)) :=
  [ (3, fun t => containsSub t "BANCO POPULAR".data ||
      containsSub t "BANCOPOPULAR".data),
    (5, fun t => searchSixteenDigits t),
    (4, fun t => searchItems
      [pDigN 2, pLit "/", .cls (fun c => 'A' ≤ c && c ≤ 'Z') 3 (some 3),
       pLit "/", pDigN 4] t) ]

/-- The signals of the `falabella_credit_card` entry. -/
def falabellaCreditCardSignals : List (ℕ × (List Char → Bool)) :=
  [ (3, fun t => containsSub t "FALABELLA".data || containsSub t "CMR".data),
    (5, fun t => searchItems [pLit "PAGA", pWS1, pLit "ANTES", pWS1, pLit "DEL"] t),
    (4, fun t => searchItems [pLit "HAS", pWS1, pLit "UTILIZADO:"] t),
    (4, fun t => searchItems
      [pLit "CUPO", pWS1, pLit "TOTAL", pWS1, pLit "DE", pWS1, pLit "TU",
       pWS1, pLit "TARJETA:"] t) ]

/-- The signals of the `bogota_credit_card` entry. -/
def bogotaCreditCardSignals : List (ℕ × (List Char → Bool)) :=
  [ (3, fun t => containsSub t "BANCO DE BOGOT".data ||
      containsSub t "BANCODEBOGOTA".data),
    (5, fun t => searchItems [pLit "TARJETA", pWS1, pLit "NÚMERO", pWS1, pDig1] t),
    (4, fun t => searchItems
      [pLit "COMPRAS", pWS1, .cls (fun c => isDig c || c = ',' || c = '.') 1 none,
       pWS1, .cls (fun c => isDig c || c = ',' || c = '.') 1 none] t),
    (3, fun t => containsSub t "TARJETA".data ||
      containsSub t "MASTERCARD".data || containsSub t "VISA".data) ]

/-- The signals of the `bogota_loan` entry. -/
def bogotaLoanSignals : List (ℕ × (List Char → Bool)) :=
  [ (3, fun t => containsSub t "BANCO DE BOGOT".data ||
      containsSub t "BANCODEBOGOTA".data),
    (5, fun t => searchItems
      [pLit "NÚMERO", pWS1, pLit "DE", pWS1, pLit "CRÉDITO", pWS0, pDig1] t),
    (4, fun t => containsSub t "CRÉDITO DE VIVIENDA".data),
    (4, fun t => containsSub t "DATOS GENERALES DEL CRÉDITO".data) ]

/-- The signals of the `bogota_savings` entry. -/
def bogotaSavingsSignals : List (ℕ × (List Char → Bool)) :=
  [ (3, fun t => containsSub t "BANCO DE BOGOT".data ||
      containsSub t "BANCODEBOGOTA".data),
    (3, fun t => containsSub t "BANCO DE BOGOTA".data) ]

/-- The signals of the `confiar_credit_card` entry. -/
def confiarCreditCardSignals : List (ℕ × (List Char → Bool)) :=
  [ (5, fun t => containsSub t "CONFIAR".data),
    (5, fun t => containsSub t "RESUMEN DE LA CUENTA AL CORTE".data),
    (5, fun t => containsSub t "RESUMEN SALDOS".data),
    (3, fun t => containsSub t "TARJETA".data && containsSub t "CR".data) ]

/-- The `DETECTORS` registry, in registration order.  Every entry's parse
lambda passes `password=pw`; `parse_savings` and `parse_credit_card` are
the two targets whose signatures do not declare a `password` parameter. -/
def DETECTORS : List DetectorEntry :=
  [ ⟨"bancolombia_savings", bancolombiaSavingsSignals, false⟩,
    ⟨"bancolombia_credit_card", bancolombiaCreditCardSignals, false⟩,
    ⟨"bancolombia_loan", bancolombiaLoanSignals, true⟩,
    ⟨"nu_credit_card", nuCreditCardSignals, true⟩,
    ⟨"lulo_loan", luloLoanSignals, true⟩,
    ⟨"davivienda_loan", daviviendaLoanSignals, true⟩,
    ⟨"popular_credit_card", popularCreditCardSignals, true⟩,
    ⟨"falabella_credit_card", falabellaCreditCardSignals, true⟩,
    ⟨"bogota_credit_card", bogotaCreditCardSignals, true⟩,
    ⟨"bogota_loan", bogotaLoanSignals, true⟩,
    ⟨"bogota_savings", bogotaSavingsSignals, true⟩,
    ⟨"confiar_credit_card", confiarCreditCardSignals, true⟩ ]

/-- `MIN_CONFIDENCE` of `parsers/__init__.py`. -/
def MIN_CONFIDENCE : ℕ := 6

/-- `score = sum(w for w, fn in detector["signals"] if fn(sample_upper))`. -/
def score (d : DetectorEntry) (sampleUpper : List Char) : ℕ :=
  ((d.signals.filter (fun ws => ws.2 sampleUpper)).map (fun ws => ws.1)).sum

/-- The failure raised by detection (`ValueError` in the source; the
specification's `DetectionError`). -/
inductive DetectError where
  | noSignal
  | lowConfidence (best : String) (bestScore : ℕ)
deriving DecidableEq, Repr

/-- One step of Python's stable sort in descending score order: insert
after every already-placed element of greater or equal score. -/
def insertDesc (x : ℕ × DetectorEntry) :
    List (ℕ × DetectorEntry) → List (ℕ × DetectorEntry)
  | [] => [x]
  | y :: ys => if y.1 ≥ x.1 then y :: insertDesc x ys else x :: y :: ys

/-- `scored.sort(key=lambda x: x[0], reverse=True)`: Python's sort is
stable, so this left fold of stable descending insertions computes the
same list. -/
def pyStableSortDesc (l : List (ℕ × DetectorEntry)) :
    List (ℕ × DetectorEntry) :=
  l.foldl (fun acc x => insertDesc x acc) []

/-- The sample text of `detect_and_parse`: the text of the first three
pages, each followed by a newline. -/
def sampleText (pages : List String) : List Char :=
  (pages.take 3).foldl (fun acc p => acc ++ p.data ++ ['
']) []

/-- Lines 221-258 of `parsers/__init__.py`: score every detector on the
uppercased sample, keep positive scores, sort stably by descending score,
fail if nothing scored or the best score is below `MIN_CONFIDENCE`,
otherwise select the first (best) detector. -/
def detectFromSample (sampleText : List Char) : Except DetectError DetectorEntry :=
  let sampleUpper := pyUpper sampleText
  let scored := (DETECTORS.map (fun d => (score d sampleUpper, d))).filter
    (fun sd => sd.1 > 0)
  match pyStableSortDesc scored with
  | [] => .error .noSignal
  | (bestScore, best) :: _ =>
      if bestScore < MIN_CONFIDENCE then
        .error (.lowConfidence best.name bestScore)
      else .ok best

/-- Detection over a document's pages: the sample is the first three
pages' text, with OCR text substituted when the stripped sample is empty
(the OCR provider is external; its text is a parameter). -/
def detectSelect (pages : List String) (ocrText : String) :
    Except DetectError DetectorEntry :=
  let sample := sampleText pages
  let sample := if (pyStrip sample).isEmpty then ocrText.data else sample
  detectFromSample sample

end PdfParser

namespace Bogota

open PdfParser

/-- Match of `(\d{2}/\d{2}/\d{4})\s+(\d{2}/\d{2}/\d{4})` at the head of
`s`: group 1 and the suffix after the whole match.  The greedy `\s+` is
deterministic here because the second date starts with a digit, so only
the maximal whitespace run can precede it. -/
def twoDatesHere (s : List Char) : Option (List Char × List Char) := do
  let (g1, r1) ← matchDate10 s
  let ws := r1.takeWhile isWS
  if ws.isEmpty then none
  else
    let (_, r3) ← matchDate10 (r1.drop ws.length)
    some (g1, r3)

/-- `re.search` of the two-date pattern (line 191): leftmost match,
returning the text before the match, group 1, and the text after the
match. -/
def searchTwoDates : List Char → Option (List Char × List Char × List Char)
  | [] => none
  | c :: t =>
      match twoDatesHere (c :: t) with
      | some (g1, after) => some ([], g1, after)
      | none =>
          match searchTwoDates t with
          | some (before, g1, after) => some (c :: before, g1, after)
          | none => none

/-- Python `str.split(maxsplit=1)`: leading whitespace dropped, first
whitespace-free token, then the remainder after the separator run. -/
def splitMax1 (s : List Char) : List (List Char) :=
  let s1 := s.dropWhile isWS
  if s1.isEmpty then []
  else
    let tok := s1.takeWhile (fun c => !isWS c)
    let rest := (s1.drop tok.length).dropWhile isWS
    if rest.isEmpty then [tok] else [tok, rest]

/-- `bogota_credit_card._parse_us_number`: strip, drop `$` and spaces,
map `""` and `"-"` to `0.0`, then `float` after dropping commas
(`none` models the `ValueError` the caller catches). -/
def parseUsNumber (s : List Char) : Option ℚ :=
  let s := removeChar ' ' (removeChar '$' (pyStrip s))
  if s.isEmpty || s = ['-'] then some (mkRat 0 1)
  else pyFloat (removeChar ',' s)

/-- The transaction branch of `parse_bogota_credit_card`'s per-line loop
(lines 191-265) on an already-stripped line: the transaction appended
for that line, if any.  The amount is `nums[1]` parsed with no absolute
value; the `installments=` keyword is dropped by pydantic, so the
constructor is `mkTransactionWithInstallmentsKw`. -/
def txFromLine (stripped : List Char) : Option ParsedTransaction := do
  let (before, g1, after) ← searchTwoDates stripped
  if !isDig (stripped.headD ' ') then none
  else
    match splitMax1 (pyStrip before) with
    | [auth, desc] =>
        let nums := pySplitWS (pyStrip after)
        if nums.length < 6 then none
        else do
          let term_str := nums.getD 0 []
          let amount_str := nums.getD 1 []
          let rem_str := nums.getD 4 []
          let balance_str := nums.getD 5 []
          let tx_date ← mkDate (digitsNum (g1.drop 6))
            (digitsNum ((g1.drop 3).take 2)) (digitsNum (g1.take 2))
          let amount ← parseUsNumber amount_str
          let balance ← parseUsNumber balance_str
          let direction := if "PAGO".data.isPrefixOf (pyUpper desc) ||
              "ABONO".data.isPrefixOf (pyUpper desc) then
            TransactionDirection.inflow else TransactionDirection.outflow
          let installments := if term_str ≠ "00".data && rem_str ≠ "00".data then
            some (String.mk (rem_str ++ '/' :: term_str ++ " left".data))
          else none
          some (mkTransactionWithInstallmentsKw tx_date (String.mk desc)
            amount direction (some balance) "COP" (some (String.mk auth))
            installments)
    | _ => none

end Bogota

namespace Falabella

open PdfParser

/-- `falabella_credit_card._parse_colombian_number`: strip, drop `$`,
spaces and `%`, map `""` and `"-"` to `0.0`, record and strip a leading
sign, then `float` after dropping dots and turning the comma into a
decimal point (`none` models `ValueError`). -/
def parseColombianNumber (s : List Char) : Option ℚ :=
  let s := removeChar '%' (removeChar ' ' (removeChar '$' (pyStrip s)))
  if s.isEmpty || s = ['-'] then some (mkRat 0 1)
  else
    let negative := "-".data.isPrefixOf s
    let s2 := s.dropWhile (· = '-')
    (pyFloat (replaceChar ',' '.' (removeChar '.' s2))).map
      (fun v => if negative then -v else v)

/-- `TX_LINE_RE` as pattern items: items 0-4 form group 1 (the date),
item 6 is group 2 (the greedy description), item 8 group 3 (`[TA]`),
items 10-13 group 4 (`-?\$?\s*[\d.,]+`), item 15 group 5 (`.*`). -/
def txItems : List PItem :=
  [pDigN 2, pLit "/", pDigN 2, pLit "/", pDigN 4,
   pWS1,
   .cls (fun c => c ≠ (Char.ofNat 10)) 1 none,
   pWS1,
   .cls (fun c => c = 'T' || c = 'A') 1 (some 1),
   pWS1,
   .cls (· = '-') 0 (some 1), .cls (· = '$') 0 (some 1),
   pWS0, .cls (fun c => isDig c || c = '.' || c = ',') 1 none,
   pWS0,
   .cls (fun c => c ≠ (Char.ofNat 10)) 0 none]

/-- `re.match(r"(\d+\s+de\s+\d+)", rest)` of the transaction branch:
the matched installment text, if any. -/
def instDeMatch (s : List Char) : Option (List Char) :=
  match matchItemsG [pDig1, pWS1, pLit "de", pWS1, pDig1] s with
  | some (sp, _) => some sp.flatten
  | none => none

/-- The arguments `parse_falabella_credit_card` (lines 199-237) passes to
the `ParsedTransaction` constructor for a normalised, stripped line. -/
structure TxArgs where
  tx_date : PyDate
  desc : String
  amount : ℚ
  direction : TransactionDirection
  installments : Option String
deriving DecidableEq, Repr

/-- The transaction branch of `parse_falabella_credit_card` on one
normalised, stripped line: the constructor arguments, if the line is a
transaction line. -/
def txArgs (stripped : List Char) : Option TxArgs := do
  let (sp, _) ← matchItemsG txItems stripped
  let date_str := (sp.take 5).flatten
  let desc := pyStrip (sp.getD 6 [])
  let amount_str := ((sp.drop 10).take 4).flatten
  let rest_str := pyStrip (sp.getD 15 [])
  let tx_date ← mkDate (digitsNum (date_str.drop 6))
    (digitsNum ((date_str.drop 3).take 2)) (digitsNum (date_str.take 2))
  let amount0 ← parseColombianNumber amount_str
  let (amount, direction) :=
    if amount0 < 0 then (-amount0, TransactionDirection.inflow)
    else if "DEVOLUCION".data.isPrefixOf (pyUpper desc) ||
        "PAGO".data.isPrefixOf (pyUpper desc) then
      (amount0, TransactionDirection.inflow)
    else (amount0, TransactionDirection.outflow)
  let installments := (instDeMatch rest_str).map String.mk
  some ⟨tx_date, String.mk desc, amount, direction, installments⟩

/-- The transaction `parse_falabella_credit_card` appends for one line:
the constructor is called with the extra `installments=` keyword, which
pydantic drops. -/
def txLine (stripped : List Char) : Option ParsedTransaction :=
  (txArgs stripped).map (fun a => mkTransactionWithInstallmentsKw a.tx_date
    a.desc a.amount a.direction none "COP" none a.installments)

end Falabella

namespace BancolombiaCC

open PdfParser

/-- `bancolombia_credit_card._parse_colombian_number`: drop `$`, spaces
and `%`, strip, map `""` and `"-"` to `0.0`, then `float` after dropping
dots and turning the comma into a decimal point (`none` models
`ValueError`). -/
def parseColombianNumber (s : List Char) : Option ℚ :=
  let s := pyStrip (removeChar '%' (removeChar ' ' (removeChar '$' s)))
  if s.isEmpty || s = ['-'] then some (mkRat 0 1)
  else pyFloat (replaceChar ',' '.' (removeChar '.' s))

/-- `COLOMBIAN_NUM_START_RE.match`, `^(-?[\d.,]+)`: the matched text and
the rest of the string. -/
def numStartMatch (s : List Char) : Option (List Char × List Char) :=
  let neg := s.headD ' ' = '-'
  let body := if neg then s.tail else s
  let run := body.takeWhile (fun c => isDig c || c = '.' || c = ',')
  if run.isEmpty then none
  else some ((if neg then '-' :: run else run), body.drop run.length)

/-- `re.match(r"(\d+/\d+)", rest)`: the matched installment text, if
any. -/
def instSlashMatch (s : List Char) : Option (List Char) :=
  let d1 := s.takeWhile isDig
  if d1.isEmpty then none
  else
    let r1 := s.drop d1.length
    if r1.headD ' ' ≠ '/' then none
    else
      let d2 := r1.tail.takeWhile isDig
      if d2.isEmpty then none
      else some (d1 ++ '/' :: d2)

/-- The arguments `_parse_transaction_line` passes to the
`ParsedTransaction` constructor, before the currency and the
sign-handling of the amount. -/
structure TxArgs where
  tx_date : PyDate
  description : String
  amount : ℚ
  balance : Option ℚ
  auth : Option String
  installments : Option String
deriving DecidableEq, Repr

/-- `bancolombia_credit_card._parse_transaction_line` (lines 158-233) up
to the constructor call: date search, auth number, `$`-split into
description and amounts, leading amount with optional `n/m` installment
text, trailing balance. -/
def parseTxArgs (line : List Char) : Option TxArgs := do
  let (before, g1, after) ← searchDate10 line
  let auth0 := pyStrip before
  let auth : Option String := if auth0.isEmpty then none else some (String.mk auth0)
  let dollar_parts := splitOnChar '$' (pyStrip after)
  if dollar_parts.length < 2 then none
  else
    let description := pyStrip (dollar_parts.getD 0 [])
    if description.isEmpty then none
    else do
      let first_part := pyStrip (dollar_parts.getD 1 [])
      let (g, restRaw) ← numStartMatch first_part
      let amount ← parseColombianNumber g
      let installments := (instSlashMatch (pyStrip restRaw)).map String.mk
      let balance := parseColombianNumber (pyStrip (dollar_parts.getLastD []))
      let tx_date ← mkDate (digitsNum (g1.drop 6))
        (digitsNum ((g1.drop 3).take 2)) (digitsNum (g1.take 2))
      some ⟨tx_date, String.mk description, amount, balance, auth, installments⟩

/-- `_parse_transaction_line`: direction from the sign, absolute amount,
and the constructor called with the extra `installments=` keyword, which
pydantic drops. -/
def parseTransactionLine (line : List Char) (currency : String) :
    Option ParsedTransaction :=
  (parseTxArgs line).map (fun a =>
    mkTransactionWithInstallmentsKw a.tx_date a.description
      (if a.amount < 0 then -a.amount else a.amount)
      (if a.amount < 0 then TransactionDirection.inflow
       else TransactionDirection.outflow)
      a.balance currency a.auth a.installments)

end BancolombiaCC

namespace BancolombiaSavings

open PdfParser

/-- `bancolombia_savings._parse_us_number`: `float` after dropping
commas (`none` models `ValueError`). -/
def parseUsNumber (s : List Char) : Option ℚ := pyFloat (removeChar ',' s)

/-- The `[\d,]` class of the savings number groups. -/
def isDigComma (c : Char) : Bool := isDig c || c = ','

/-- `NUMBERS_AT_END`, `(-?[\d,]*\.\d{2})\s+([\d,]*\.\d{2})\s*$`:
the leftmost match's start position, group 1 and group 2. -/
def numbersAtEnd (line : List Char) : Option (ℕ × List Char × List Char) :=
  (searchItemsGEnd
    [.cls (· = '-') 0 (some 1), .cls isDigComma 0 none, pLit ".", pDigN 2,
     pWS1, .cls isDigComma 0 none, pLit ".", pDigN 2, pWS0] line).map
    (fun p => (p.1, (p.2.take 4).flatten, ((p.2.drop 5).take 3).flatten))

/-- `DATE_AT_START`, `^\s*(\d{1,2}/\d{2})\s+`: group 1 and the index of
the end of the match. -/
def dateAtStart (line : List Char) : Option (List Char × ℕ) :=
  let ws := line.takeWhile isWS
  let s := line.drop ws.length
  tryDigCount s 1 2 (fun n1 =>
    let s1 := s.drop n1
    if s1.headD ' ' = '/' && (s1.tail.take 2).length = 2 &&
        (s1.tail.take 2).all isDig then
      let w2 := (s1.tail.drop 2).takeWhile isWS
      if w2.isEmpty then none
      else some (s.take n1 ++ '/' :: s1.tail.take 2,
        ws.length + n1 + 3 + w2.length)
    else none)

/-- `PERIOD_RE`,
`DESDE:\s*(\d{4}/\d{2}/\d{2})\s+HASTA:\s*(\d{4}/\d{2}/\d{2})`:
groups 1 and 2 of the leftmost match. -/
def periodSearch (line : List Char) : Option (List Char × List Char) :=
  (searchItemsG
    [pLit "DESDE:", pWS0, pDigN 4, pLit "/", pDigN 2, pLit "/", pDigN 2,
     pWS1, pLit "HASTA:", pWS0, pDigN 4, pLit "/", pDigN 2, pLit "/", pDigN 2]
    line).map
    (fun sp => (((sp.drop 2).take 5).flatten, ((sp.drop 10).take 5).flatten))

/-- `date.fromisoformat` on the period group after `/` became `-`:
the group's shape is fixed by the regex. -/
def fromIso (g : List Char) : Option PyDate :=
  mkDate (digitsNum (g.take 4)) (digitsNum ((g.drop 5).take 2))
    (digitsNum (g.drop 8))

/-- `ACCOUNT_RE`, `NÚMERO\s+(\d+)`: group 1 of the leftmost match. -/
def accountSearch (line : List Char) : Option (List Char) :=
  (searchItemsG [pLit "NÚMERO", pWS1, pDig1] line).map (fun sp => sp.getD 2 [])

/-- The tail of `SUMMARY_RE` after its label alternation:
`\s+\$\s+([\d,]*\.?\d+)`. -/
def summaryTail : List PItem :=
  [pWS1, pLit "$", pWS1, .cls isDigComma 0 none, .cls (· = '.') 0 (some 1),
   pDig1]

/-- `SUMMARY_RE` at one position: the label alternation tried in pattern
order, returning the label's index and group 2. -/
def summaryHere (s : List Char) : Option (ℕ × List Char) :=
  tryLabel "SALDO ANTERIOR" 0 |>.orElse (fun _ =>
  tryLabel "TOTAL ABONOS" 1 |>.orElse (fun _ =>
  tryLabel "TOTAL CARGOS" 2 |>.orElse (fun _ =>
  tryLabel "SALDO ACTUAL" 3)))
where
  /-- One alternative: the literal label, then the amount tail. -/
  tryLabel (lbl : String) (k : ℕ) : Option (ℕ × List Char) :=
    if lbl.data.isPrefixOf s then
      (matchItemsG summaryTail (s.drop lbl.length)).map
        (fun p => (k, ((p.1.drop 3).take 3).flatten))
    else none

/-- `SUMMARY_RE.search`: leftmost position scan. -/
def summarySearch : List Char → Option (ℕ × List Char)
  | [] => summaryHere []
  | s@(_ :: t) =>
      match summaryHere s with
      | some r => some r
      | none => summarySearch t

/-- The loop state of `parse_savings`: the accumulated transactions, the
period, the account number, and the four keyed entries of the
`summary_data` dict. -/
structure SavState where
  transactions : List ParsedTransaction := []
  period_from : Option PyDate := none
  period_to : Option PyDate := none
  account_number : Option String := none
  sPrev : Option ℚ := none
  sAbonos : Option ℚ := none
  sCargos : Option ℚ := none
  sActual : Option ℚ := none
deriving DecidableEq, Repr

/-- `summary_data[label] = value`: dict assignment, overwriting. -/
def setSummary (st : SavState) (k : ℕ) (v : ℚ) : SavState :=
  if k = 0 then {st with sPrev := some v}
  else if k = 1 then {st with sAbonos := some v}
  else if k = 2 then {st with sCargos := some v}
  else {st with sActual := some v}

/-- One line of `parse_savings`'s loop (lines 71-140); `none` models an
uncaught `ValueError` from a date constructor. -/
def doLine (todayYear : ℕ) (st : SavState) (line : List Char) :
    Option SavState := do
  let st ← match st.period_from with
    | some _ => some st
    | none =>
        match periodSearch line with
        | none => some st
        | some (g1, g2) => do
            let pf ← fromIso g1
            let pt ← fromIso g2
            some {st with period_from := some pf, period_to := some pt}
  let st := match st.account_number with
    | some _ => st
    | none =>
        match accountSearch line with
        | none => st
        | some g => {st with account_number := some (String.mk g)}
  let st ← match summarySearch line with
    | none => some st
    | some (k, g2) => do
        let v ← parseUsNumber g2
        some (setSummary st k v)
  if containsSub line "FIN ESTADO DE CUENTA".data then some st
  else
    match numbersAtEnd line with
    | none => some st
    | some (nstart, g1, g2) =>
        match dateAtStart line with
        | none => some st
        | some (dg, dend) =>
            let day := dg.takeWhile (· ≠ '/')
            let tx_month := digitsNum (dg.drop (day.length + 1))
            let tx_day := digitsNum day
            let tx_year := match st.period_from, st.period_to with
              | some pf, some pt => resolveYearSavings tx_month pf pt
              | _, _ => todayYear
            do
              let tx_date ← mkDate tx_year tx_month tx_day
              let description := pyStrip ((line.drop dend).take (nstart - dend))
              let valor ← parseUsNumber g1
              let saldo ← parseUsNumber g2
              let direction := if 0 ≤ valor then TransactionDirection.inflow
                else TransactionDirection.outflow
              some {st with transactions := st.transactions ++
                [⟨tx_date, String.mk description,
                  if valor < 0 then -valor else valor, direction, some saldo,
                  "COP", none, none, none⟩]}

/-- The per-page line loop. -/
def doLines (todayYear : ℕ) : SavState → List (List Char) → Option SavState
  | st, [] => some st
  | st, l :: ls => do
      let st ← doLine todayYear st l
      doLines todayYear st ls

/-- The page loop: a page with no text is skipped. -/
def doPages (todayYear : ℕ) : SavState → List (List Char) → Option SavState
  | st, [] => some st
  | st, p :: ps =>
      if p.isEmpty then doPages todayYear st ps
      else do
        let st ← doLines todayYear st (splitOnChar '\n' p)
        doPages todayYear st ps

/-- `parse_savings` over the pages' extracted text (the PDF layer is
external); `none` models an uncaught `ValueError`.  `todayYear` is
`date.today().year`, used only when no period header was found. -/
def parseSavings (todayYear : ℕ) (pages : List (List Char)) :
    Option ParsedStatement := do
  let st ← doPages todayYear {} pages
  some ⟨"bancolombia", StatementType.savings, st.account_number, none,
    st.period_from, st.period_to, "COP",
    some ⟨st.sPrev, st.sAbonos, st.sCargos, st.sActual, none, none⟩,
    none, none, st.transactions⟩

/-- The savings sample document of the end-to-end claim, as one page's
extracted text. -/
def c1Page : String :=
  "BANCOLOMBIA CUENTA DE AHORROS\nDESDE: 2025/12/01 HASTA: 2026/01/31\nN\u00daMERO 12345678901\nSALDO ANTERIOR $ 4,000.00\n15/01 PAGO NOMINA 1,000.00 5,000.00\nSALDO ACTUAL $ 5,000.00\nFIN ESTADO DE CUENTA"

end BancolombiaSavings

namespace PdfParser

/-- Leftmost `re.search` scan: the first position where `f` matches. -/
def searchScan (f : List Char → Option α) : List Char → Option α
  | [] => f []
  | s@(_ :: t) =>
      match f s with
      | some r => some r
      | none => searchScan f t

end PdfParser

namespace BancolombiaCC

open PdfParser

/-- The `[\d.,]` class of the Colombian amount groups. -/
def isNumCls (c : Char) : Bool := isDig c || c = '.' || c = ','

/-- The `[\d.]` class of the rate groups. -/
def isNumDot (c : Char) : Bool := isDig c || c = '.'

/-- `_currency_label_to_code`. -/
def currencyCode (label : List Char) : String :=
  let l := pyStrip (pyUpper label)
  if l = "PESOS".data then "COP"
  else if l = "DOLARES".data || l = "DÓLARES".data then "USD"
  else String.mk l

/-- The `(PESOS|DOLARES|DÓLARES)` alternation at one position of the
uppercased text. -/
def currencyLabelAt (s : List Char) : Option (List Char) :=
  if "PESOS".data.isPrefixOf s then some "PESOS".data
  else if "DOLARES".data.isPrefixOf s then some "DOLARES".data
  else if "DÓLARES".data.isPrefixOf s then some "DÓLARES".data
  else none

/-- `CURRENCY_RE`, `Moneda:\s*(PESOS|DOLARES|DÓLARES)` (ignore-case), at
one position of the uppercased text. -/
def monedaHere (s : List Char) : Option (List Char) :=
  if "MONEDA:".data.isPrefixOf s then
    currencyLabelAt ((s.drop 7).dropWhile isWS)
  else none

/-- `ESTADO_CURRENCY_RE`, `ESTADO DE CUENTA EN\s*:\s*(...)`
(ignore-case), at one position of the uppercased text. -/
def estadoHere (s : List Char) : Option (List Char) :=
  if "ESTADO DE CUENTA EN".data.isPrefixOf s then
    let r := (s.drop 19).dropWhile isWS
    if r.headD ' ' = ':' then currencyLabelAt (r.tail.dropWhile isWS)
    else none
  else none

/-- `_detect_currency`: `CURRENCY_RE` first, then `ESTADO_CURRENCY_RE`. -/
def detectCurrency (text : List Char) : Option String :=
  let up := pyUpper text
  match searchScan monedaHere up with
  | some lbl => some (currencyCode lbl)
  | none => (searchScan estadoHere up).map currencyCode

/-- The upper-case Spanish month token at one position. -/
def monthTokAt (s : List Char) : Option (List Char) :=
  (["ENE", "FEB", "MAR", "ABR", "MAY", "JUN", "JUL", "AGO", "SEP", "OCT",
    "NOV", "DIC"].map String.data).find? (fun m => m.isPrefixOf s)

/-- `SPANISH_MONTHS` lookup on the uppercased month token (the lambda
lower-cases before the lookup; `0` when absent). -/
def monthNum (m : List Char) : ℕ :=
  if m = "ENE".data then 1 else if m = "FEB".data then 2
  else if m = "MAR".data then 3 else if m = "ABR".data then 4
  else if m = "MAY".data then 5 else if m = "JUN".data then 6
  else if m = "JUL".data then 7 else if m = "AGO".data then 8
  else if m = "SEP".data then 9 else if m = "OCT".data then 10
  else if m = "NOV".data then 11 else if m = "DIC".data then 12
  else 0

/-- `PERIOD_DATE_RE` at one position of the uppercased text:
`(\d{1,2})\s+(mon)\.?\s*[-–]\s*(\d{1,2})\s+(mon)\.?\s+(\d{4})`,
returning the day, month token number, day, month token number and
year. -/
def periodHere (s : List Char) : Option (ℕ × ℕ × ℕ × ℕ × ℕ) :=
  tryDigCount s 1 2 (fun n1 =>
    let d1 := digitsNum (s.take n1)
    let s1 := s.drop n1
    let w1 := s1.takeWhile isWS
    if w1.isEmpty then none
    else
      let s2 := s1.drop w1.length
      (monthTokAt s2).bind (fun m1 =>
        let s3 := s2.drop 3
        let s3 := if s3.headD ' ' = '.' then s3.tail else s3
        let s4 := s3.dropWhile isWS
        if s4.headD ' ' = '-' || s4.headD ' ' = '–' then
          let s5 := s4.tail.dropWhile isWS
          tryDigCount s5 1 2 (fun n2 =>
            let d2 := digitsNum (s5.take n2)
            let s6 := s5.drop n2
            let w2 := s6.takeWhile isWS
            if w2.isEmpty then none
            else
              let s7 := s6.drop w2.length
              (monthTokAt s7).bind (fun m2 =>
                let s8 := s7.drop 3
                let s8 := if s8.headD ' ' = '.' then s8.tail else s8
                let w3 := s8.takeWhile isWS
                if w3.isEmpty then none
                else
                  let s9 := s8.drop w3.length
                  if (s9.take 4).length = 4 && (s9.take 4).all isDig then
                    some (d1, monthNum m1, d2, monthNum m2,
                      digitsNum (s9.take 4))
                  else none))
        else none))

/-- `_parse_period` (lines 137-151); `none` models an uncaught
`ValueError` from the `date` constructors. -/
def parsePeriod (text : List Char) : Option (Option PyDate × Option PyDate) :=
  match searchScan periodHere (pyUpper text) with
  | none => some (none, none)
  | some (fd, fm, td, tm, year) =>
      if fm = 0 || tm = 0 then some (none, none)
      else do
        let fy := if fm ≤ tm then year else year - 1
        let pf ← mkDate fy fm fd
        let pt ← mkDate year tm td
        some (some pf, some pt)

/-- `CARD_NUMBER_RE`, `Tarjeta:\s*\*+(\d{4})`, at one position. -/
def cardHere (s : List Char) : Option (List Char) :=
  if "Tarjeta:".data.isPrefixOf s then
    let r := (s.drop 8).dropWhile isWS
    let stars := r.takeWhile (· = '*')
    if stars.isEmpty then none
    else
      let d := (r.drop stars.length).take 4
      if d.length = 4 && d.all isDig then some d else none
  else none

/-- `CARD_NUMBER_RE.search` over one page's text. -/
def searchCardNumber (text : List Char) : Option (List Char) :=
  searchScan cardHere text

/-- The first page whose card-number search succeeds (the `if not
card_last_four` scan of the page loop). -/
def cardScan : List (List Char) → Option (List Char)
  | [] => none
  | t :: ts =>
      match searchCardNumber t with
      | some c => some c
      | none => cardScan ts

/-- `SKIP_PATTERNS`. -/
def SKIP_PATTERNS : List String :=
  ["DCF:defensor", "autorización", "pendiente", "Couta/Abono",
   "Recuerda estar", "débitos a tus cuentas"]

/-- `_should_skip_line`. -/
def shouldSkipLine (line : List Char) : Bool :=
  SKIP_PATTERNS.any (fun p => containsSub line p.data)

/-- The transaction loop of one currency section (lines 379-400): the
`in_tx_section` flag opens at a boundary marker and persists across the
section's pages. -/
def sectionTxGo (currency : String) : Bool → List (List Char) → List ParsedTransaction
  | _, [] => []
  | flag, line :: rest =>
      if containsSub line "Nuevos movimientos".data ||
          containsSub line "Movimientos antes".data then
        sectionTxGo currency true rest
      else if !flag then sectionTxGo currency flag rest
      else
        let ls := pyStrip line
        if shouldSkipLine ls then sectionTxGo currency flag rest
        else if ls.isEmpty then sectionTxGo currency flag rest
        else
          match parseTransactionLine ls currency with
          | some tx => tx :: sectionTxGo currency flag rest
          | none => sectionTxGo currency flag rest

/-- The transactions of one currency section's pages. -/
def sectionTransactions (currency : String) (texts : List (List Char)) :
    List ParsedTransaction :=
  sectionTxGo currency false ((texts.map (fun t => splitOnChar (Char.ofNat 10) t)).flatten)

/-- The `meta` dict of `_extract_metadata`. -/
structure CCMeta where
  credit_limit : Option ℚ := none
  available_credit : Option ℚ := none
  interest_rate : Option ℚ := none
  late_interest_rate : Option ℚ := none
  total_payment_due : Option ℚ := none
  minimum_payment : Option ℚ := none
  payment_due_date : Option PyDate := none
deriving DecidableEq, Repr

/-- The `summary` dict of `_extract_metadata`. -/
structure CCSum where
  previous_balance : Option ℚ := none
  purchases_and_charges : Option ℚ := none
  interest_charged : Option ℚ := none
  final_balance : Option ℚ := none
deriving DecidableEq, Repr

/-- Python falsiness of `dict.get(key)`: absent, or present and `0.0`. -/
def zeroOrNone (o : Option ℚ) : Bool :=
  match o with
  | none => true
  | some v => v = 0

/-- `CUPO_TOTAL_RE` (ignore-case): group 1 over the uppercased line. -/
def cupoTotalSearch (up : List Char) : Option (List Char) :=
  (searchItemsG [pLit "CUPO", pWS1, pLit "TOTAL", pWS0,
    .cls (· = ':') 0 (some 1), pWS0, pLit "$", pWS0, .cls isNumCls 1 none]
    up).map (fun sp => sp.getD 8 [])

/-- `CUPO_DISPONIBLE_RE` (ignore-case): group 1. -/
def cupoDisponibleSearch (up : List Char) : Option (List Char) :=
  (searchItemsG [pLit "DISPONIBLE", pWS0, .cls (· = ':') 0 (some 1), pWS0,
    pLit "$", pWS0, .cls isNumCls 1 none] up).map (fun sp => sp.getD 6 [])

/-- `SALDO_ANTERIOR_RE` (ignore-case): group 1. -/
def saldoAnteriorSearch (up : List Char) : Option (List Char) :=
  (searchItemsG [pLit "SALDO", pWS1, pLit "ANTERIOR", pWS0, pLit "$", pWS0,
    .cls isNumCls 1 none] up).map (fun sp => sp.getD 6 [])

/-- `COMPRAS_MES_RE` (ignore-case): group 1. -/
def comprasMesSearch (up : List Char) : Option (List Char) :=
  (searchItemsG [pLit "COMPRAS", pWS1, pLit "DEL", pWS1, pLit "MES", pWS0,
    pLit "$", pWS0, .cls isNumCls 1 none] up).map (fun sp => sp.getD 8 [])

/-- `INTERESES_CORRIENTES_RE` (ignore-case): group 1. -/
def interesesSearch (up : List Char) : Option (List Char) :=
  (searchItemsG [pLit "INTERESES", pWS1, pLit "CORRIENTES", pWS0, pLit "$",
    pWS0, .cls isNumCls 1 none] up).map (fun sp => sp.getD 6 [])

/-- `TASA_COMPRA_RE` (case-sensitive), both alternation branches:
groups 1 and 2. -/
def tasaCompraHere (s : List Char) : Option (List Char × List Char) :=
  match matchItemsG [pLit "Compra", pWS1, pLit "2", pWS0, pLit "-", pWS0,
    pLit "36", pWS1, pLit "cuotas", pWS1, .cls isNumDot 1 none, pLit "%",
    pWS1, .cls isNumDot 1 none, pLit "%"] s with
  | some (sp, _) => some (sp.getD 10 [], sp.getD 13 [])
  | none =>
      match matchItemsG [pLit "Compra", pWS1, pLit "Internacional", pWS1,
        .cls isNumDot 1 none, pLit "%", pWS1, .cls isNumDot 1 none,
        pLit "%"] s with
      | some (sp, _) => some (sp.getD 4 [], sp.getD 7 [])
      | none => none

/-- `TASA_MORA_RE`: groups 1 and 2. -/
def tasaMoraHere (s : List Char) : Option (List Char × List Char) :=
  match matchItemsG [pLit "Mora", pWS1, .cls isNumDot 1 none, pLit "%",
    pWS1, .cls isNumDot 1 none, pLit "%"] s with
  | some (sp, _) => some (sp.getD 2 [], sp.getD 5 [])
  | none => none

/-- The suffix after the last `$` of a line. -/
def afterLastDollar : List Char → Option (List Char)
  | [] => none
  | c :: t =>
      match afterLastDollar t with
      | some r => some r
      | none => if c = '$' then some t else none

/-- `LAST_DOLLAR_VALUE_RE`, `\$\s*([\d.,]+)(?!.*\$)`: the negative
lookahead admits only the line's last `$`, so the group is the number
following it, when one does. -/
def lastDollarValue (s : List Char) : Option (List Char) :=
  (afterLastDollar s).bind (fun r =>
    let g := (r.dropWhile isWS).takeWhile isNumCls
    if g.isEmpty then none else some g)

/-- `PAGAR_ANTES_DATE_RE` at one position of the uppercased line:
`(mon)\.?\s+(\d{1,2}),?\s+(\d{4})`. -/
def pagarHere (s : List Char) : Option (List Char × ℕ × ℕ) :=
  (monthTokAt s).bind (fun m =>
    let s1 := s.drop 3
    let s1 := if s1.headD ' ' = '.' then s1.tail else s1
    let w := s1.takeWhile isWS
    if w.isEmpty then none
    else
      let s2 := s1.drop w.length
      tryDigCount s2 1 2 (fun n =>
        let day := digitsNum (s2.take n)
        let s3 := s2.drop n
        let s3 := if s3.headD ' ' = ',' then s3.tail else s3
        let w2 := s3.takeWhile isWS
        if w2.isEmpty then none
        else
          let s4 := s3.drop w2.length
          if (s4.take 4).length = 4 && (s4.take 4).all isDig then
            some (m, day, digitsNum (s4.take 4))
          else none))

/-- One line of `_extract_metadata`'s state machine (lines 244-330);
`none` models an uncaught `ValueError`. -/
def metaLine (m : CCMeta) (sm : CCSum) (prev stripped : List Char) :
    Option (CCMeta × CCSum) := do
  let up := pyUpper stripped
  let m ← if zeroOrNone m.credit_limit then
      match cupoTotalSearch up with
      | none => some m
      | some g => ((parseColombianNumber g).map
          (fun v => {m with credit_limit := some v}))
    else some m
  let m ← if zeroOrNone m.available_credit then
      match cupoDisponibleSearch up with
      | none => some m
      | some g => ((parseColombianNumber g).map
          (fun v => {m with available_credit := some v}))
    else some m
  let sm ← if zeroOrNone sm.previous_balance then
      match saldoAnteriorSearch up with
      | none => some sm
      | some g => ((parseColombianNumber g).map
          (fun v => {sm with previous_balance := some v}))
    else some sm
  let sm ← if zeroOrNone sm.purchases_and_charges then
      match comprasMesSearch up with
      | none => some sm
      | some g => ((parseColombianNumber g).map
          (fun v => {sm with purchases_and_charges := some v}))
    else some sm
  let sm ← if zeroOrNone sm.interest_charged then
      match interesesSearch up with
      | none => some sm
      | some g => ((parseColombianNumber g).map
          (fun v => {sm with interest_charged := some v}))
    else some sm
  let m ← if zeroOrNone m.interest_rate then
      match searchScan tasaCompraHere stripped with
      | none => some m
      | some (g1, _) => do
          let rate ← pyFloat g1
          if rate > 0 then some {m with interest_rate := some rate}
          else some m
    else some m
  let m ← if zeroOrNone m.late_interest_rate then
      match searchScan tasaMoraHere stripped with
      | none => some m
      | some (g1, _) => ((pyFloat g1).map
          (fun v => {m with late_interest_rate := some v}))
    else some m
  let m ← if zeroOrNone m.total_payment_due &&
        containsSub prev "Pago Total:".data then
      match lastDollarValue stripped with
      | none => some m
      | some g => ((parseColombianNumber g).map
          (fun v => {m with total_payment_due := some v}))
    else some m
  let m ← if m.payment_due_date.isNone then
      match searchScan pagarHere up with
      | none => some m
      | some (mon, day, year) => do
          let mnum := monthNum mon
          let m ← if mnum ≠ 0 then
              (mkDate year mnum day).map
                (fun d => {m with payment_due_date := some d})
            else some m
          if zeroOrNone m.minimum_payment then
            match lastDollarValue stripped with
            | none => some m
            | some g => ((parseColombianNumber g).map
                (fun v => {m with minimum_payment := some v}))
          else some m
    else some m
  some (m, sm)

/-- The line loop of `_extract_metadata`, carrying `prev_line`. -/
def metaLines : CCMeta → CCSum → List Char → List (List Char) →
    Option (CCMeta × CCSum)
  | m, sm, _, [] => some (m, sm)
  | m, sm, prev, line :: rest => do
      let stripped := pyStrip line
      let (m, sm) ← metaLine m sm prev stripped
      metaLines m sm stripped rest

/-- The text loop of `_extract_metadata` (`prev_line` resets per
page). -/
def metaTexts : CCMeta → CCSum → List (List Char) → Option (CCMeta × CCSum)
  | m, sm, [] => some (m, sm)
  | m, sm, t :: ts => do
      let (m, sm) ← metaLines m sm [] (splitOnChar (Char.ofNat 10) t)
      metaTexts m sm ts

/-- `_extract_metadata`: the state machine, then
`summary.setdefault("final_balance", meta["total_payment_due"])` when
the latter is truthy, then the two model constructors. -/
def extractMetadataCC (texts : List (List Char)) :
    Option (CreditCardMetadata × StatementSummary) := do
  let (m, sm) ← metaTexts {} {} texts
  let sm := if !zeroOrNone m.total_payment_due && sm.final_balance.isNone then
      {sm with final_balance := m.total_payment_due}
    else sm
  some (⟨m.credit_limit, m.available_credit, m.interest_rate,
      m.late_interest_rate, m.total_payment_due, m.minimum_payment,
      m.payment_due_date⟩,
    ⟨sm.previous_balance, none, none, sm.final_balance,
      sm.purchases_and_charges, sm.interest_charged⟩)

/-- One currency section: its pages' texts and its period. -/
structure Section where
  texts : List (List Char)
  period_from : Option PyDate
  period_to : Option PyDate
deriving DecidableEq, Repr

/-- `currency in sections`. -/
def hasKey (sections : List (String × Section)) (c : String) : Bool :=
  sections.any (fun kv => kv.1 = c)

/-- `sections[currency]["texts"].append(text)`. -/
def appendText (sections : List (String × Section)) (c : String)
    (t : List Char) : List (String × Section) :=
  sections.map (fun kv =>
    if kv.1 = c then (kv.1, {kv.2 with texts := kv.2.texts ++ [t]}) else kv)

/-- The page-grouping loop of `parse_credit_card` (lines 349-375): the
sections dict in insertion order, the current currency, and the card
number; `none` models an uncaught `ValueError` from `_parse_period`. -/
def groupPages : List (List Char) → List (String × Section) →
    Option String → Option (List Char) →
    Option (List (String × Section) × Option (List Char))
  | [], sections, _, card => some (sections, card)
  | t :: ts, sections, current, card => do
      let card := match card with
        | some _ => card
        | none => searchCardNumber t
      let (current, sections) ←
        match detectCurrency t with
        | none => some (current, sections)
        | some c =>
            if hasKey sections c then some (some c, sections)
            else do
              let (pf, pt) ← parsePeriod t
              some (some c, sections ++ [(c, ⟨[], pf, pt⟩)])
      let sections := match current with
        | some c => if hasKey sections c then appendText sections c t
            else sections
        | none => sections
      groupPages ts sections current card

/-- The per-section result loop of `parse_credit_card` (lines 378-419). -/
def buildResults (card : Option (List Char)) :
    List (String × Section) → Option (List ParsedStatement)
  | [] => some []
  | (currency, sec) :: rest => do
      let txs := sectionTransactions currency sec.texts
      let (ccm, sm) ← extractMetadataCC sec.texts
      let r ← buildResults card rest
      some (⟨"bancolombia", StatementType.credit_card, none,
        card.map String.mk, sec.period_from, sec.period_to, currency,
        some sm, some ccm, none, txs⟩ :: r)

/-- `parse_credit_card` over the deduped pages' extracted text (the PDF
layer is external); `none` models an uncaught `ValueError`. -/
def parseCreditCard (pages : List (List Char)) :
    Option (List ParsedStatement) := do
  let (sections, card) ← groupPages pages [] none none
  buildResults card sections

/-- Page 0 of the currency-splitting witness document: no currency
marker, but a card number. -/
def c4p0 : String := "Tarjeta: ****9876\nresumen general"

/-- Page 1: the PESOS section with one transaction. -/
def c4p1 : String :=
  "Moneda: PESOS\nNuevos movimientos\nT1 01/02/2026 COMPRA UNO $ 10.000,00 $ 10.000,00"

/-- Page 2: the DOLARES section with one transaction. -/
def c4p2 : String :=
  "ESTADO DE CUENTA EN : DOLARES\nNuevos movimientos\n02/02/2026 COMPRA DOS $ 5,00 $ 5,00"

end BancolombiaCC

namespace PdfParser

/-- Character lower-casing as performed by Python `str.lower`,
restricted to the alphabet of `pyUpperChar`. -/
def pyLowerChar (c : Char) : Char :=
  if 'A' ≤ c && c ≤ 'Z' then Char.ofNat (c.toNat + 32)
  else if c = 'Á' then 'á' else if c = 'É' then 'é'
  else if c = 'Í' then 'í' else if c = 'Ó' then 'ó'
  else if c = 'Ú' then 'ú' else if c = 'Ñ' then 'ñ'
  else if c = 'Ü' then 'ü' else c

/-- Python `str.lower` on a character list. -/
def pyLower (s : List Char) : List Char := s.map pyLowerChar

/-- Python `str.find` returning the suffix starting at the leftmost
occurrence of `sub`. -/
def pyFindSuffix (s sub : List Char) : Option (List Char) :=
  if sub.isPrefixOf s then some s
  else
    match s with
    | [] => none
    | _ :: t => pyFindSuffix t sub

/-- `str.strip(chars)`: drop the given characters from both ends. -/
def stripChars (cs : List Char) (s : List Char) : List Char :=
  ((s.dropWhile (fun c => cs.contains c)).reverse.dropWhile
    (fun c => cs.contains c)).reverse

end PdfParser

namespace OpendataFallback

open PdfParser

/-- `_AMOUNT_RE`, `-?\$?\s*\d[\d.,]*`, matched at the head of `s`: the
matched text and the remaining suffix.  Each optional prefix and the
whitespace run are forced (a failed longer alternative leaves a
character the following element cannot match), so no backtracking is
needed. -/
def matchAmountAt (s : List Char) : Option (List Char × List Char) :=
  let pr1 := if s.headD ' ' = '-' then (['-'], s.tail) else ([], s)
  let pr2 := if pr1.2.headD ' ' = '$' then (pr1.1 ++ ['$'], pr1.2.tail) else pr1
  let ws := pr2.2.takeWhile isWS
  match pr2.2.drop ws.length with
  | c :: t =>
      if isDig c then
        let body := t.takeWhile (fun x => isDig x || x = '.' || x = ',')
        some (pr2.1 ++ ws ++ c :: body, t.drop body.length)
      else none
  | [] => none

/-- `_AMOUNT_RE.finditer`: non-overlapping matches left to right, with
their start positions.  The fuel is the scanned length; every step
consumes at least one character. -/
def findAmountsAux : ℕ → ℕ → List Char → List (ℕ × List Char)
  | 0, _, _ => []
  | _ + 1, _, [] => []
  | fuel + 1, i, s@(_ :: t) =>
      match matchAmountAt s with
      | some (m, rest) => (i, m) :: findAmountsAux fuel (i + m.length) rest
      | none => findAmountsAux fuel (i + 1) t

/-- All `_AMOUNT_RE` matches of `s` with their start positions. -/
def findAmounts (s : List Char) : List (ℕ × List Char) :=
  findAmountsAux s.length 0 s

/-- The `[∕-]` separator class of `_DATE_START_RE`. -/
def sepCls (c : Char) : Bool := c = '/' || c = '-'

/-- `_DATE_START_RE`,
`^\s*(\d{1,2}(?:[∕-]\d{1,2})(?:[∕-]\d{2,4})?)\s+`: group 1 and the
suffix after the whole match. -/
def dateStartMatch (line : List Char) : Option (List Char × List Char) :=
  let ws := line.takeWhile isWS
  let s := line.drop ws.length
  tryDigCount s 1 2 (fun n1 =>
    let s1 := s.drop n1
    if sepCls (s1.headD ' ') then
      tryDigCount s1.tail 1 2 (fun n2 =>
        let s3 := s1.tail.drop n2
        let withOpt :=
          if sepCls (s3.headD ' ') then
            tryDigCount s3.tail 2 4 (fun n3 =>
              let s4 := s3.tail.drop n3
              let w := s4.takeWhile isWS
              if w.isEmpty then none
              else some (s.take n1 ++ s1.headD ' ' :: s1.tail.take n2 ++
                s3.headD ' ' :: s3.tail.take n3, s4.drop w.length))
          else none
        withOpt.orElse (fun _ =>
          let w := s3.takeWhile isWS
          if w.isEmpty then none
          else some (s.take n1 ++ s1.headD ' ' :: s1.tail.take n2,
            s3.drop w.length)))
    else none)

/-- `strptime`'s `%d` field, `(3[01]|[12]\d|0[1-9]|[1-9])`: the
two-digit alternatives (value 1-31, not `00`) before the one-digit
`[1-9]`, backtracking through the continuation. -/
def parseDayAt (s : List Char) (cont : ℕ → List Char → Option α) : Option α :=
  match s with
  | a :: b :: t =>
      if isDig a && isDig b && 1 ≤ digitsNum [a, b] && digitsNum [a, b] ≤ 31 then
        match cont (digitsNum [a, b]) t with
        | some r => some r
        | none =>
            if '1' ≤ a && a ≤ '9' then cont (digitsNum [a]) (b :: t) else none
      else if '1' ≤ a && a ≤ '9' then cont (digitsNum [a]) (b :: t)
      else none
  | [a] => if '1' ≤ a && a ≤ '9' then cont (digitsNum [a]) [] else none
  | [] => none

/-- `strptime`'s `%m` field, `(1[0-2]|0[1-9]|[1-9])`. -/
def parseMonAt (s : List Char) (cont : ℕ → List Char → Option α) : Option α :=
  match s with
  | a :: b :: t =>
      if isDig a && isDig b && 1 ≤ digitsNum [a, b] && digitsNum [a, b] ≤ 12 then
        match cont (digitsNum [a, b]) t with
        | some r => some r
        | none =>
            if '1' ≤ a && a ≤ '9' then cont (digitsNum [a]) (b :: t) else none
      else if '1' ≤ a && a ≤ '9' then cont (digitsNum [a]) (b :: t)
      else none
  | [a] => if '1' ≤ a && a ≤ '9' then cont (digitsNum [a]) [] else none
  | [] => none

/-- `strptime(token, "%d<sep>%m<sep>%Y")`, the syntactic part: the full
token must be consumed, the year is exactly four digits. -/
def fmtDMY (sep : Char) (tok : List Char) : Option (ℕ × ℕ × ℕ) :=
  parseDayAt tok (fun d s1 =>
    if s1.headD ' ' = sep then
      parseMonAt s1.tail (fun m s2 =>
        if s2.headD ' ' = sep && s2.tail.length = 4 && s2.tail.all isDig then
          some (d, m, digitsNum s2.tail)
        else none)
    else none)

/-- `strptime(token, "%d<sep>%m<sep>%y")`: two-digit year with the
century rule (0-68 → 2000s, 69-99 → 1900s). -/
def fmtDMy (sep : Char) (tok : List Char) : Option (ℕ × ℕ × ℕ) :=
  parseDayAt tok (fun d s1 =>
    if s1.headD ' ' = sep then
      parseMonAt s1.tail (fun m s2 =>
        if s2.headD ' ' = sep && s2.tail.length = 2 && s2.tail.all isDig then
          let y2 := digitsNum s2.tail
          some (d, m, if y2 ≤ 68 then 2000 + y2 else 1900 + y2)
        else none)
    else none)

/-- `strptime(token, "%d<sep>%m")`. -/
def fmtDM (sep : Char) (tok : List Char) : Option (ℕ × ℕ) :=
  parseDayAt tok (fun d s1 =>
    if s1.headD ' ' = sep then
      parseMonAt s1.tail (fun m s2 => if s2.isEmpty then some (d, m) else none)
    else none)

/-- A syntactically parsed day-month-year validated by the `datetime`
constructor; a failure of either step falls through to the next
format. -/
def tryFull (o : Option (ℕ × ℕ × ℕ)) : Option PyDate :=
  o.bind (fun t => mkDate t.2.2 t.2.1 t.1)

/-- The day-month formats: validated at year 1900 (strptime's default),
then rebuilt at today's year. -/
def tryDM (todayYear : ℕ) (o : Option (ℕ × ℕ)) : Option PyDate :=
  o.bind (fun t => (mkDate 1900 t.2 t.1).bind
    (fun p => mkDate todayYear p.month p.day))

/-- `_parse_date_token`: the six formats in order, each `ValueError`
falling through to the next. -/
def parseDateToken (todayYear : ℕ) (token : List Char) : Option PyDate :=
  let tok := pyStrip token
  (tryFull (fmtDMY '/' tok)).orElse (fun _ =>
  (tryFull (fmtDMY '-' tok)).orElse (fun _ =>
  (tryFull (fmtDMy '/' tok)).orElse (fun _ =>
  (tryFull (fmtDMy '-' tok)).orElse (fun _ =>
  (tryDM todayYear (fmtDM '/' tok)).orElse (fun _ =>
  tryDM todayYear (fmtDM '-' tok))))))

/-- `_parse_transaction_line` (lines 305-358): the outer `some` is
normal control flow (`none` the uncaught `ValueError` of the first
amount's `_parse_mixed_number`); the inner option is the returned
transaction or `None`. -/
def parseTransactionLineOD (todayYear : ℕ) (line : List Char)
    (stype : StatementType) : Option (Option ParsedTransaction) :=
  match dateStartMatch line with
  | none => some none
  | some (g1, rest0) =>
      match parseDateToken todayYear g1 with
      | none => some none
      | some tx_date =>
          let rest := pyStrip rest0
          match findAmounts rest with
          | [] => some none
          | (start0, m0) :: more =>
              match parseMixedNumber m0 with
              | none => none
              | some amount_value =>
                  if amount_value = 0 then some none
                  else
                    let description := stripChars [' ', '-', '|'] (rest.take start0)
                    if description.length < 3 then some none
                    else
                      let amounts := (start0, m0) :: more
                      let balance : Option ℚ :=
                        if amounts.length > 1 then
                          match parseMixedNumber (amounts.getLastD (0, [])).2 with
                          | none => none
                          | some bv =>
                              if bv ≠ 0 then some (if bv < 0 then -bv else bv)
                              else none
                        else none
                      let direction := match stype with
                        | StatementType.savings =>
                            if amount_value > 0 then TransactionDirection.inflow
                            else TransactionDirection.outflow
                        | _ =>
                            if amount_value < 0 then TransactionDirection.inflow
                            else TransactionDirection.outflow
                      some (some ⟨tx_date, String.mk description,
                        if amount_value < 0 then -amount_value else amount_value,
                        direction, balance, "COP", none, none, none⟩)

/-- The dedup loop of `_extract_transactions`, carrying the `seen`
keys. -/
def extractTransactionsGo (todayYear : ℕ) (stype : StatementType) :
    List (List Char) → List (PyDate × List Char × ℚ × TransactionDirection) →
    Option (List ParsedTransaction)
  | [], _ => some []
  | l :: ls, seen =>
      match parseTransactionLineOD todayYear l stype with
      | none => none
      | some none => extractTransactionsGo todayYear stype ls seen
      | some (some tx) =>
          let key := (tx.date, pyLower tx.description.data, tx.amount,
            tx.direction)
          if seen.contains key then extractTransactionsGo todayYear stype ls seen
          else (extractTransactionsGo todayYear stype ls (key :: seen)).map
            (fun r => tx :: r)

/-- `_extract_transactions`. -/
def extractTransactions (todayYear : ℕ) (lines : List (List Char))
    (stype : StatementType) : Option (List ParsedTransaction) :=
  extractTransactionsGo todayYear stype lines []

/-- `_detect_statement_type`. -/
def detectStatementType (upper : List Char) : StatementType :=
  if ["CRÉDITO", "CREDITO", "OBLIGACIÓN", "OBLIGACION", "PRÉSTAMO"].any
      (fun t => containsSub upper t.data) then StatementType.loan
  else if ["TARJETA", "CUPO", "PAGO MÍNIMO", "PAGO MINIMO"].any
      (fun t => containsSub upper t.data) then StatementType.credit_card
  else StatementType.savings

/-- `_detect_bank`: the token table in insertion order. -/
def detectBank (upper : List Char) : String :=
  if containsSub upper "BANCOLOMBIA".data then "bancolombia"
  else if ["NU FINANCIERA", "NU COLOMBIA", "NUBANK"].any
      (fun t => containsSub upper t.data) then "nu"
  else if containsSub upper "LULO BANK".data then "lulo_bank"
  else if ["BANCO DE BOGOT", "BANCODEBOGOTA"].any
      (fun t => containsSub upper t.data) then "banco_de_bogota"
  else if ["BANCO POPULAR", "BANCOPOPULAR"].any
      (fun t => containsSub upper t.data) then "banco_popular"
  else if containsSub upper "DAVIVIENDA".data then "davivienda"
  else if ["FALABELLA", "CMR"].any (fun t => containsSub upper t.data) then
    "falabella"
  else if containsSub upper "CONFIAR".data then "cooperativa_confiar"
  else "unknown_bank"

/-- The `\D{0,8}(\d{6,20})` tail of `_ACCOUNT_RE`: the greedy non-digit
run is forced (a shorter run leaves a non-digit where a digit is
required), so the run must be at most eight long, followed by at least
six digits; the group keeps at most twenty. -/
def accAfter (s : List Char) : Option (List Char) :=
  let nd := s.takeWhile (fun c => !isDig c)
  if nd.length > 8 then none
  else
    let ds := (s.drop nd.length).takeWhile isDig
    if ds.length ≥ 6 then some (ds.take 20) else none

/-- `_ACCOUNT_RE`, `(?:CUENTA|N[UÚ]MERO)\D{0,8}(\d{6,20})`
(ignore-case, applied to the uppercased text), at one position. -/
def accountHere (s : List Char) : Option (List Char) :=
  if "CUENTA".data.isPrefixOf s then accAfter (s.drop 6)
  else if "NUMERO".data.isPrefixOf s then accAfter (s.drop 6)
  else if "NÚMERO".data.isPrefixOf s then accAfter (s.drop 6)
  else none

/-- `_extract_account_number`. -/
def searchAccount (upper : List Char) : Option (List Char) :=
  searchScan accountHere upper

/-- The `(?:\*{2,}|•\s*)+(\d{4})` loop of `_CARD_LAST_FOUR_RE` after at
least one repetition: greedily try a further repetition, else the four
digits.  Taking the maximal star run is equivalent to the backtracking
search, and the whitespace run after `•` is forced. -/
def cardRepsLoop : ℕ → List Char → Option (List Char)
  | 0, _ => none
  | fuel + 1, s =>
      let viaRep :=
        if s.headD ' ' = '•' then
          cardRepsLoop fuel (s.tail.drop (s.tail.takeWhile isWS).length)
        else
          let stars := s.takeWhile (· = '*')
          if stars.length ≥ 2 then cardRepsLoop fuel (s.drop stars.length)
          else none
      match viaRep with
      | some r => some r
      | none =>
          let d4 := s.take 4
          if d4.length = 4 && d4.all isDig then some d4 else none

/-- `_CARD_LAST_FOUR_RE` at one position: the first repetition must be
present (the four bare digits alone never match, since the entry
character is a star or bullet). -/
def cardFourHere (s : List Char) : Option (List Char) :=
  if s.headD ' ' = '•' || s.take 2 = ['*', '*'] then
    cardRepsLoop (s.length + 1) s
  else none

/-- `_extract_card_last_four` (on the original text). -/
def searchCardLastFour (text : List Char) : Option (List Char) :=
  searchScan cardFourHere text

/-- The inner match loop of `_find_amount_after`: the first non-zero
amount, made absolute; the outer `none` models an uncaught
`ValueError`. -/
def firstNonzero : List (List Char) → Option (Option ℚ)
  | [] => some none
  | m :: rest =>
      match parseMixedNumber m with
      | none => none
      | some v =>
          if v ≠ 0 then some (some (if v < 0 then -v else v))
          else firstNonzero rest

/-- `_find_amount_after`: each keyword's 180-character window in turn. -/
def findAmountAfter (upper : List Char) : List String → Option (Option ℚ)
  | [] => some none
  | k :: ks =>
      match pyFindSuffix upper k.data with
      | none => findAmountAfter upper ks
      | some suf =>
          let ms := (findAmounts (suf.take 180)).map Prod.snd
          if ms.isEmpty then findAmountAfter upper ks
          else
            match firstNonzero ms with
            | none => none
            | some (some v) => some (some v)
            | some none => findAmountAfter upper ks

/-- The `[.,]` class of the rate fraction. -/
def isDotComma (c : Char) : Bool := c = '.' || c = ','

/-- The rate pattern of `_find_percentage_after`,
`(\d{1,2}(?:[.,]\d{1,4})?)\s*%`, at one position. -/
def rateHere (s : List Char) : Option (List Char) :=
  tryDigCount s 1 2 (fun n1 =>
    let g := s.take n1
    let s1 := s.drop n1
    let withFrac :=
      if isDotComma (s1.headD ' ') then
        tryDigCount s1.tail 1 4 (fun n2 =>
          if ((s1.tail.drop n2).dropWhile isWS).headD ' ' = '%' then
            some (g ++ s1.headD ' ' :: s1.tail.take n2)
          else none)
      else none
    withFrac.orElse (fun _ =>
      if (s1.dropWhile isWS).headD ' ' = '%' then some g else none))

/-- `_find_percentage_after`: each keyword's 120-character window. -/
def findPercentageAfter (upper : List Char) : List String → Option (Option ℚ)
  | [] => some none
  | k :: ks =>
      match pyFindSuffix upper k.data with
      | none => findPercentageAfter upper ks
      | some suf =>
          match searchScan rateHere (suf.take 120) with
          | none => findPercentageAfter upper ks
          | some g =>
              match parseMixedNumber g with
              | none => none
              | some v =>
                  if v > 0 then some (some v)
                  else findPercentageAfter upper ks

/-- `_extract_summary`. -/
def extractSummary (upper : List Char) : Option (Option StatementSummary) := do
  let previous_balance ← findAmountAfter upper ["SALDO ANTERIOR", "SALDO INICIAL"]
  let total_credits ← findAmountAfter upper
    ["TOTAL ABONOS", "TOTAL CRÉDITOS", "TOTAL CREDITOS"]
  let total_debits ← findAmountAfter upper
    ["TOTAL CARGOS", "TOTAL DÉBITOS", "TOTAL DEBITOS"]
  let final_balance ← findAmountAfter upper
    ["SALDO ACTUAL", "SALDO FINAL", "NUEVO SALDO"]
  let purchases ← findAmountAfter upper ["COMPRAS DEL MES", "COMPRAS Y CARGOS"]
  let interest ← findAmountAfter upper
    ["INTERESES CORRIENTES", "INTERÉS CORRIENTE", "INTERES CORRIENTE"]
  if previous_balance.isNone && total_credits.isNone && total_debits.isNone &&
      final_balance.isNone && purchases.isNone && interest.isNone then
    some none
  else
    some (some ⟨previous_balance, total_credits, total_debits, final_balance,
      purchases, interest⟩)

/-- `_extract_credit_metadata`. -/
def extractCreditMetadata (upper : List Char) :
    Option (Option CreditCardMetadata) := do
  let credit_limit ← findAmountAfter upper
    ["CUPO TOTAL", "CUPO DEFINIDO", "LÍMITE DE CRÉDITO"]
  let available_credit ← findAmountAfter upper ["CUPO DISPONIBLE", "DISPONIBLE"]
  let minimum_payment ← findAmountAfter upper ["PAGO MÍNIMO", "PAGO MINIMO"]
  let total_payment_due ← findAmountAfter upper ["PAGO TOTAL", "TOTAL A PAGAR"]
  if credit_limit.isNone && available_credit.isNone && minimum_payment.isNone &&
      total_payment_due.isNone then
    some none
  else
    some (some ⟨credit_limit, available_credit, none, none, total_payment_due,
      minimum_payment, none⟩)

/-- `_extract_loan_metadata`. -/
def extractLoanMetadata (upper : List Char) : Option (Option LoanMetadata) := do
  let remaining_balance ← findAmountAfter upper
    ["SALDO CAPITAL", "SALDO PENDIENTE", "SALDO ACTUAL"]
  let total_payment_due ← findAmountAfter upper
    ["VALOR A PAGAR", "PAGO TOTAL", "CUOTA DEL PERIODO"]
  let interest_rate ← findPercentageAfter upper
    ["TASA PACTADA", "TASA INTERÉS", "TASA INTERES"]
  let late_interest_rate ← findPercentageAfter upper
    ["TASA MORA", "INTERÉS MORA", "INTERES MORA"]
  if remaining_balance.isNone && total_payment_due.isNone &&
      interest_rate.isNone && late_interest_rate.isNone then
    some none
  else
    some (some ⟨none, none, none, none, remaining_balance, interest_rate,
      late_interest_rate, total_payment_due, none, none, none, none, none⟩)

/-- Python `str.splitlines` for newline-separated text: like splitting
on the newline, without a trailing empty field. -/
def splitlinesPy (s : List Char) : List (List Char) :=
  match s with
  | [] => []
  | _ =>
      let parts := splitOnChar (Char.ofNat 10) s
      if s.getLastD ' ' = Char.ofNat 10 then parts.dropLast else parts

/-- The `lines` local of `_build_statements_from_text`: stripped,
non-empty lines. -/
def odLines (text : List Char) : List (List Char) :=
  ((splitlinesPy text).map pyStrip).filter (fun l => !l.isEmpty)

/-- The `credit_meta` value after line 219's statement-type guard. -/
def creditOf (text : List Char) (credit0 : Option CreditCardMetadata) :
    Option CreditCardMetadata :=
  if detectStatementType (pyUpper text) ≠ StatementType.credit_card then none
  else credit0

/-- The `loan_meta` value after line 221's statement-type guard. -/
def loanOf (text : List Char) (loan0 : Option LoanMetadata) :
    Option LoanMetadata :=
  if detectStatementType (pyUpper text) ≠ StatementType.loan then none
  else loan0

/-- Lines 224-240 of `_build_statements_from_text`: the acceptance gate
(`has_metadata` is the truthiness of `summary or credit_meta or
loan_meta`) and the statement assembly. -/
def gatherOD (text : List Char) (transactions : List ParsedTransaction)
    (summary : Option StatementSummary) (credit0 : Option CreditCardMetadata)
    (loan0 : Option LoanMetadata) : Option (List ParsedStatement) :=
  if transactions.isEmpty && !(summary.isSome ||
      (creditOf text credit0).isSome || (loanOf text loan0).isSome) then
    some []
  else
    some [⟨detectBank (pyUpper text), detectStatementType (pyUpper text),
      (searchAccount (pyUpper text)).map String.mk,
      (searchCardLastFour text).map String.mk, none, none, "COP", summary,
      creditOf text credit0, loanOf text loan0, transactions⟩]

/-- `_build_statements_from_text` (lines 203-240); `none` models an
uncaught `ValueError` from a helper. -/
def buildStatementsFromText (todayYear : ℕ) (text : List Char) :
    Option (List ParsedStatement) :=
  if (odLines text).isEmpty then some []
  else
    (extractTransactions todayYear (odLines text)
        (detectStatementType (pyUpper text))).bind (fun transactions =>
      (extractSummary (pyUpper text)).bind (fun summary =>
        (extractCreditMetadata (pyUpper text)).bind (fun credit0 =>
          (extractLoanMetadata (pyUpper text)).bind (fun loan0 =>
            gatherOD text transactions summary credit0 loan0))))

/-- Lines 75-79 of `try_parse_with_opendataloader`: an empty statement
list is reported as `None`. -/
def tryParseGate (statements : List ParsedStatement) :
    Option (List ParsedStatement) :=
  if statements.isEmpty then none else some statements

/-- The witness text of the fallback-gate claim: one metadata keyword
line and one transaction line. -/
def c8text : String := "CUENTA 123456\n15/01/2025 PAGO NOMINA 1.000,00"

end OpendataFallback

namespace PdfParser

/-- Older-wins pick: the current best survives a tie. -/
def pickOlder (b x : ℕ × DetectorEntry) : ℕ × DetectorEntry :=
  if b.1 ≥ x.1 then b else x

/-- First maximum of a scored list, by a left fold with older-wins
ties. -/
def firstMaxFold (l : List (ℕ × DetectorEntry)) : Option (ℕ × DetectorEntry) :=
  match l with
  | [] => none
  | x :: xs => some (xs.foldl pickOlder x)

end PdfParser

/-! ## Theorems -/

namespace PdfParser

/-- Helper: the source's pair check agrees with the index-based
fully-doubled condition of the specification. -/
theorem pairsDoubled_eq_spec : (t : List Char) →
    Falabella.dedupToken.pairsDoubled t =
      (List.range (t.length / 2)).all
        (fun i => t.getD (2 * i) ' ' = t.getD (2 * i + 1) ' ')
  | [] => by simp [Falabella.dedupToken.pairsDoubled]
  | [a] => by simp [Falabella.dedupToken.pairsDoubled]
  | a :: b :: t => by
    have ih := pairsDoubled_eq_spec t
    simp only [Falabella.dedupToken.pairsDoubled, ih, List.length_cons]
    have hlen : t.length + 1 + 1 = t.length + 2 := rfl
    rw [hlen, Nat.add_div_right _ (by norm_num), List.range_succ_eq_map,
      List.all_cons, List.all_map]
    simp only [Nat.mul_zero, List.getD_cons_zero, List.getD_cons_succ,
      Function.comp_def]
    rfl

/-- Helper: the source's `token[::2]` slice agrees with the index-based
half-token of the specification. -/
theorem everySecond_eq_spec : (t : List Char) →
    Falabella.dedupToken.everySecond t = Spec.halfToken t
  | [] => by simp [Falabella.dedupToken.everySecond, Spec.halfToken]
  | [a] => by simp [Falabella.dedupToken.everySecond, Spec.halfToken,
      List.range_succ]
  | a :: b :: t => by
    have ih := everySecond_eq_spec t
    simp only [Falabella.dedupToken.everySecond, ih, Spec.halfToken,
      List.length_cons]
    have hlen : t.length + 1 + 1 + 1 = t.length + 1 + 2 := rfl
    rw [hlen, Nat.add_div_right _ (by norm_num), List.range_succ_eq_map,
      List.map_cons, List.map_map]
    simp only [Nat.mul_zero, List.getD_cons_zero, Function.comp_def]
    rfl

/-- C5: year resolution for transaction dates lacking an explicit year —
for every period and transaction month, both copies of the resolver
(`utils.resolve_year` and `bancolombia_savings._resolve_year`) follow the
specification's rule: same calendar year gives that year, otherwise the
start year for months at or above the period's start month and the end
year for months below it; in particular for the period
2025-12-01..2026-01-31, month 12 resolves to 2025 and month 1 to 2026. -/
theorem claim_C5_resolve_year :
    (∀ (m : ℕ) (f t : PyDate),
      resolve_year m f t = Spec.yearRule m f t) ∧
    (∀ (m : ℕ) (f t : PyDate),
      BancolombiaSavings.resolveYearSavings m f t = Spec.yearRule m f t) ∧
    resolve_year 12 ⟨2025, 12, 1⟩ ⟨2026, 1, 31⟩ = 2025 ∧
    resolve_year 1 ⟨2025, 12, 1⟩ ⟨2026, 1, 31⟩ = 2026 ∧
    BancolombiaSavings.resolveYearSavings 12 ⟨2025, 12, 1⟩ ⟨2026, 1, 31⟩ = 2025 ∧
    BancolombiaSavings.resolveYearSavings 1 ⟨2025, 12, 1⟩ ⟨2026, 1, 31⟩ = 2026 := by
  refine ⟨?_, ?_, by decide, by decide, by decide, by decide⟩ <;>
  · intro m f t
    simp only [resolve_year, BancolombiaSavings.resolveYearSavings, Spec.yearRule]
    by_cases h1 : f.year = t.year
    · simp [h1]
    · by_cases h2 : m < f.month
      · simp [h1, h2, show ¬ m ≥ f.month by omega]
      · simp [h1, h2, show m ≥ f.month by omega]

/-- C7: doubled-character collapse — for every token, `_dedup_token`
returns the half-length first-of-each-pair string exactly when the token
has even length and every adjacent pair is doubled, and returns the token
unchanged otherwise; "CCMMRR" collapses to "CMR", "TT" to "T", while
"1.969.900,00" and odd-length or not-fully-doubled tokens are unchanged,
and `_normalize_line` applies the collapse per split part (note the
doubled two-space separator itself collapses to one space). -/
theorem claim_C7_dedup_token :
    (∀ t : List Char,
      Falabella.dedupToken t =
        if Spec.fullyDoubled t then Spec.halfToken t else t) ∧
    Falabella.dedupToken "CCMMRR".data = "CMR".data ∧
    Falabella.dedupToken "TT".data = "T".data ∧
    Falabella.dedupToken "1.969.900,00".data = "1.969.900,00".data ∧
    Falabella.dedupToken "AAB".data = "AAB".data ∧
    Falabella.normalizeLine "CCMMRR  1.969.900,00 TT".data =
      "CMR 1.969.900,00 T".data := by
  refine ⟨?_, by decide, by decide, by decide, by decide, by decide⟩
  intro t
  match t with
  | [] => rfl
  | [a] =>
    simp [Falabella.dedupToken, Spec.fullyDoubled]
  | a :: b :: t =>
    simp only [Falabella.dedupToken, Spec.fullyDoubled, pairsDoubled_eq_spec,
      everySecond_eq_spec, List.length_cons]
    have h2 : (decide (t.length + 1 + 1 ≥ 2)) = true := by
      simp
    rw [h2]
    simp only [Bool.true_and]

end PdfParser

namespace PdfParser

theorem takeWhileAppend (l1 l2 : List Char) (p : Char → Bool)
    (h : ∀ a ∈ l1, p a = true) (c : Char) (hc : p c = false) :
    (l1 ++ c :: l2).takeWhile p = l1 := by
  induction l1 with
  | nil => simp [List.takeWhile, hc]
  | cons a t ih =>
    simp only [List.cons_append, List.takeWhile]
    rw [h a (by simp)]
    simp only [List.cons.injEq, true_and]
    exact ih (fun x hx => h x (by simp [hx]))

theorem dropWhileAllFalse (l : List Char) (p : Char → Bool)
    (h : ∀ a ∈ l, p a = false) : l.dropWhile p = l := by
  induction l with
  | nil => rfl
  | cons a t _ =>
    simp only [List.dropWhile]
    rw [h a (by simp)]

theorem pyStripNoWS (l : List Char) (h : ∀ a ∈ l, isWS a = false) :
    pyStrip l = l := by
  unfold pyStrip
  rw [dropWhileAllFalse l _ h,
    dropWhileAllFalse l.reverse _ (fun a ha => h a (List.mem_reverse.mp ha)),
    List.reverse_reverse]

theorem pyFloatDecimalNil (fp : List Char) (hfp : ∀ a ∈ fp, isDig a = true) :
    pyFloat ('.' :: fp) =
      if fp.isEmpty then none
      else some (mkRat (digitsNum fp : ℕ) (10 ^ fp.length)) := by
  match fp with
  | [] => rfl
  | f :: ft =>
    unfold pyFloat
    dsimp only
    rw [show (decide (('.' :: f :: ft).headD ' ' = '-') ||
        decide (('.' :: f :: ft).headD ' ' = '+')) = false from rfl]
    simp only [Bool.false_eq_true, if_false, List.takeWhile_cons]
    rw [show isDig '.' = false from rfl]
    simp only [Bool.false_eq_true, if_false, List.length_nil, List.drop_zero,
      List.isEmpty_cons, List.headD_cons, List.tail_cons, List.isEmpty_nil,
      Bool.true_and, Bool.false_or]
    rw [List.all_eq_true.mpr hfp]
    simp only [Bool.true_and, Bool.and_true, Bool.not_false, Bool.and_false]
    rw [show (decide True) = true from rfl, if_pos rfl,
      if_neg (show ¬('.' = '-') by decide)]
    have hz : digitsNum ([] : List Char) * 10 ^ (f :: ft).length + digitsNum (f :: ft)
        = digitsNum (f :: ft) := by
      rw [show digitsNum ([] : List Char) = 0 from rfl]
      omega
    rw [hz]

theorem pyFloatDecimal (ip fp : List Char)
    (hip : ∀ a ∈ ip, isDig a = true) (hfp : ∀ a ∈ fp, isDig a = true) :
    pyFloat (ip ++ '.' :: fp) =
      if ip.isEmpty && fp.isEmpty then none
      else some (mkRat (digitsNum ip * 10 ^ fp.length + digitsNum fp : ℕ)
        (10 ^ fp.length)) := by
  match ip with
  | [] =>
    rw [List.nil_append, pyFloatDecimalNil fp hfp]
    have hz : digitsNum ([] : List Char) * 10 ^ fp.length + digitsNum fp
        = digitsNum fp := by
      rw [show digitsNum ([] : List Char) = 0 from rfl]
      omega
    simp only [List.isEmpty_nil, Bool.true_and, hz]
  | a :: t =>
    have ha := hip a (by simp)
    have hcm : ¬ (a = '-') := by intro e; subst e; exact absurd ha (by decide)
    have hcp : ¬ (a = '+') := by intro e; subst e; exact absurd ha (by decide)
    unfold pyFloat
    dsimp only
    simp only [List.cons_append, List.headD_cons, decide_eq_false hcm,
      decide_eq_false hcp, Bool.or_false, Bool.false_or, Bool.false_eq_true,
      if_false]
    rw [show List.takeWhile isDig (a :: (t ++ '.' :: fp)) =
        List.takeWhile isDig ((a :: t) ++ '.' :: fp) from rfl]
    rw [takeWhileAppend (a :: t) fp isDig hip '.' (by decide)]
    rw [show a :: (t ++ '.' :: fp) = (a :: t) ++ '.' :: fp from rfl,
      List.drop_left (a :: t) ('.' :: fp)]
    simp only [List.isEmpty_cons, List.headD_cons, List.tail_cons, Bool.false_or,
      Bool.false_and, Bool.not_false, Bool.and_true]
    rw [List.all_eq_true.mpr hfp]
    rw [show (decide True && true) = true from rfl, if_pos rfl, if_neg hcm,
      if_neg (show ¬(false = true) by decide)]

theorem pyFloatDigits (l : List Char) (h : ∀ a ∈ l, isDig a = true) :
    pyFloat l = if l.isEmpty then none else some (mkRat (digitsNum l : ℕ) 1) := by
  match l with
  | [] => rfl
  | c :: t =>
    have hc := h c (by simp)
    have hcm : ¬ c = '-' := by intro e; subst e; exact absurd hc (by decide)
    have hcp : ¬ c = '+' := by intro e; subst e; exact absurd hc (by decide)
    unfold pyFloat
    dsimp only
    simp only [List.headD_cons, decide_eq_false hcm, decide_eq_false hcp,
      Bool.or_false, Bool.false_or, Bool.false_eq_true, if_false]
    rw [List.takeWhile_eq_self_iff.mpr h]
    simp only [List.drop_length, List.isEmpty_nil, List.tail_nil, Bool.true_or,
      List.isEmpty_cons, Bool.false_and, Bool.not_false, Bool.true_and]
    rw [if_pos trivial, if_neg hcm,
      if_neg (show ¬(false = true) by decide)]
    have hz : (digitsNum (c :: t) * 10 ^ ([] : List Char).length
        + digitsNum ([] : List Char) : ℕ) = digitsNum (c :: t) := by
      rw [show digitsNum ([] : List Char) = 0 from rfl]
      simp
    rw [hz]
    rfl

theorem containsSplitDot (tok : List Char) (h : tok.contains '.' = true) :
    tok = tok.takeWhile (· ≠ '.') ++ '.' :: (tok.dropWhile (· ≠ '.')).tail := by
  induction tok with
  | nil => simp at h
  | cons c t ih =>
    by_cases hc : c = '.'
    · subst hc
      simp [List.takeWhile, List.dropWhile]
    · have hct : t.contains '.' = true := by
        have hmem : '.' ∈ c :: t := List.elem_iff.mp h
        rcases List.mem_cons.mp hmem with e | e
        · exact absurd e.symm hc
        · exact List.elem_iff.mpr e
      have := ih hct
      simp only [List.takeWhile, List.dropWhile]
      rw [decide_eq_true (show c ≠ '.' from fun e => hc e)]
      simpa using this

end PdfParser

namespace PdfParser

theorem digitNotWS {a : Char} (h : isDig a = true ∨ a = '.') : isWS a = false := by
  cases hw : isWS a
  · rfl
  · exfalso
    simp only [isWS, Bool.or_eq_true, decide_eq_true_eq] at hw
    rcases h with h | h
    · rcases hw with ((((e | e) | e) | e) | e) | e <;>
        (subst e; exact absurd h (by decide))
    · subst h
      rcases hw with ((((e | e) | e) | e) | e) | e <;> exact absurd e (by decide)

theorem digitNeChar {a bad : Char} (h : isDig a = true ∨ a = '.')
    (h1 : isDig bad = false) (h2 : ('.' : Char) ≠ bad) : a ≠ bad := by
  rcases h with h | h
  · intro e; subst e; rw [h] at h1; cases h1
  · subst h; exact h2

theorem countCharSplit (l1 l2 : List Char) :
    countChar '.' (l1 ++ '.' :: l2) = countChar '.' l1 + countChar '.' l2 + 1 := by
  unfold countChar
  rw [List.filter_append, List.filter_cons, if_pos (by decide)]
  simp only [List.length_append, List.length_cons]
  omega

theorem countCharPosOfMem {c : Char} {l : List Char} (h : c ∈ l) :
    1 ≤ countChar c l := by
  unfold countChar
  have hm : c ∈ l.filter (· = c) := List.mem_filter.mpr ⟨h, by simp⟩
  exact List.length_pos.mpr (fun e => by rw [e] at hm; cases hm)

theorem removeCharNone (c : Char) (l : List Char) (h : ∀ a ∈ l, a ≠ c) :
    removeChar c l = l :=
  List.filter_eq_self.mpr (fun a ha => decide_eq_true (h a ha))

theorem dotDecimalEq (ip rest : List Char)
    (hipD : ∀ a ∈ ip, isDig a = true) (hrD : ∀ a ∈ rest, isDig a = true)
    (hipNoDot : ∀ a ∈ ip, a ≠ '.') :
    pyFloat (ip ++ '.' :: rest) = Spec.dotAsDecimal (ip ++ '.' :: rest) := by
  rw [pyFloatDecimal ip rest hipD hrD]
  unfold Spec.dotAsDecimal
  dsimp only
  have htw : (ip ++ '.' :: rest).takeWhile (· ≠ '.') = ip :=
    takeWhileAppend ip rest _ (fun a ha => decide_eq_true (hipNoDot a ha))
      '.' (by simp)
  rw [htw]
  have hdrop : (ip ++ '.' :: rest).drop (ip.length + 1) = rest := by
    have hassoc : ip ++ '.' :: rest = (ip ++ ['.']) ++ rest := by simp
    have hlen : ip.length + 1 = (ip ++ ['.']).length := by simp
    rw [hassoc, hlen, List.drop_left]
  rw [hdrop]

theorem isEmptyFalse (tok : List Char) (hne : tok ≠ []) : tok.isEmpty = false := by
  cases tok
  · exact absurd rfl hne
  · rfl

theorem headNotChar (tok : List Char) (hne : tok ≠ [])
    (hchars : ∀ a ∈ tok, isDig a = true ∨ a = '.') (bad : Char)
    (h1 : isDig bad = false) (h2 : ('.' : Char) ≠ bad) :
    ¬ tok.headD ' ' = bad := by
  match tok with
  | [] => exact absurd rfl hne
  | c :: t =>
    simp only [List.headD_cons]
    exact digitNeChar (hchars c (by simp)) h1 h2

theorem noCommaContains (tok : List Char)
    (hchars : ∀ a ∈ tok, isDig a = true ∨ a = '.') :
    tok.contains ',' = false := by
  cases hcc : tok.contains ','
  · rfl
  · exfalso
    have hmem := List.elem_iff.mp hcc
    rcases hchars ',' hmem with h | h
    · exact absurd h (by decide)
    · exact absurd h (by decide)

theorem dotSingleDecimal (tok : List Char)
    (hchars : ∀ a ∈ tok, isDig a = true ∨ a = '.')
    (hdot : tok.contains '.' = true) (hcount : countChar '.' tok = 1) :
    pyFloat tok = Spec.dotAsDecimal tok := by
  have hsplit := containsSplitDot tok hdot
  have hipNoDot : ∀ a ∈ tok.takeWhile (· ≠ '.'), a ≠ '.' := by
    intro a ha
    have := List.mem_takeWhile_imp ha
    simpa using this
  have hipDig : ∀ a ∈ tok.takeWhile (· ≠ '.'), isDig a = true := by
    intro a ha
    have hmem : a ∈ tok := (List.takeWhile_sublist _).subset ha
    rcases hchars a hmem with h | h
    · exact h
    · exact absurd h (hipNoDot a ha)
  have hrestDig : ∀ a ∈ (tok.dropWhile (· ≠ '.')).tail, isDig a = true := by
    intro a ha
    have hmem : a ∈ tok := by
      have h1 : a ∈ tok.dropWhile (· ≠ '.') := List.mem_of_mem_tail ha
      exact (List.dropWhile_sublist _).subset h1
    rcases hchars a hmem with h | h
    · exact h
    · exfalso
      subst h
      rw [hsplit, countCharSplit] at hcount
      have := countCharPosOfMem ha
      omega
  calc pyFloat tok
      = pyFloat (tok.takeWhile (· ≠ '.') ++ '.' :: (tok.dropWhile (· ≠ '.')).tail) := by
        rw [← hsplit]
    _ = Spec.dotAsDecimal
          (tok.takeWhile (· ≠ '.') ++ '.' :: (tok.dropWhile (· ≠ '.')).tail) :=
        dotDecimalEq _ _ hipDig hrestDig hipNoDot
    _ = Spec.dotAsDecimal tok := by rw [← hsplit]

theorem dotStrippedVal (tok : List Char)
    (hchars : ∀ a ∈ tok, isDig a = true ∨ a = '.') :
    pyFloat (removeChar '.' tok) = Spec.dotsStripped tok := by
  have hremDig : ∀ a ∈ removeChar '.' tok, isDig a = true := by
    intro a ha
    have := List.mem_filter.mp ha
    rcases hchars a this.1 with h | h
    · exact h
    · exfalso
      have h2 := this.2
      rw [h] at h2
      simp at h2
  rw [pyFloatDigits _ hremDig]
  unfold Spec.dotsStripped
  dsimp only

theorem mixedPartA (tok : List Char) (hd : Spec.DotOnlyToken tok) :
    OpendataFallback.parseMixedNumber tok =
      if countChar '.' tok = 1 ∧ charsAfterLast '.' tok = 2
      then Spec.dotAsDecimal tok else Spec.dotsStripped tok := by
  obtain ⟨hne, hchars, hdot⟩ := hd
  have hsplit := containsSplitDot tok hdot
  unfold OpendataFallback.parseMixedNumber
  dsimp only
  rw [removeCharNone '$' tok
      (fun a ha => digitNeChar (hchars a ha) (by decide) (by decide)),
    removeCharNone ' ' tok
      (fun a ha => digitNeChar (hchars a ha) (by decide) (by decide)),
    pyStripNoWS tok (fun a ha => digitNotWS (hchars a ha))]
  rw [isEmptyFalse tok hne]
  simp only [Bool.false_eq_true, if_false]
  have hneg : ¬ tok.headD ' ' = '-' :=
    headNotChar tok hne hchars '-' (by decide) (by decide)
  rw [if_neg hneg]
  rw [noCommaContains tok hchars, hdot]
  simp only [Bool.false_and, Bool.false_eq_true, if_false]
  simp only [eq_false hneg, if_false]
  simp only [ite_self, Option.map_id']
  by_cases hcond : countChar '.' tok = 1 ∧ charsAfterLast '.' tok = 2
  · rw [if_pos hcond,
      show (decide (countChar '.' tok > 1) || decide (charsAfterLast '.' tok ≠ 2))
        = false from by simp [hcond.1, hcond.2]]
    simp only [Bool.false_eq_true, if_false]
    exact dotSingleDecimal tok hchars hdot hcond.1
  · rw [if_neg hcond]
    have hge : countChar '.' tok ≥ 1 := by
      rw [hsplit, countCharSplit]; omega
    rw [show (decide (countChar '.' tok > 1) || decide (charsAfterLast '.' tok ≠ 2))
        = true from by
      rcases Decidable.em (countChar '.' tok = 1) with he | he
      · have hh : charsAfterLast '.' tok ≠ 2 := fun e => hcond ⟨he, e⟩
        simp [hh]
      · have hh : countChar '.' tok > 1 := by omega
        simp [hh]]
    simp only [if_true]
    exact dotStrippedVal tok hchars

theorem numPartB (tok : List Char) (hd : Spec.DotOnlyToken tok) :
    Confiar.parseNum tok =
      if tok = ['.'] then some 0
      else if Confiar.optDotOneTwoDigits tok then
        some (mkRat (digitsNum (tok.dropWhile (· = '.')) : ℕ) 1)
      else if countChar '.' tok = 1 ∧ charsAfterLast '.' tok ≤ 2
      then Spec.dotAsDecimal tok else Spec.dotsStripped tok := by
  obtain ⟨hne, hchars, hdot⟩ := hd
  by_cases htd : tok = ['.']
  · subst htd
    decide
  · rw [if_neg htd]
    have hsplit := containsSplitDot tok hdot
    have hnc : tok ≠ [','] := by
      intro e
      rcases hchars ',' (e ▸ (by simp)) with h | h
      · exact absurd h (by decide)
      · exact absurd h (by decide)
    have hnm : tok ≠ ['-'] := by
      intro e
      rcases hchars '-' (e ▸ (by simp)) with h | h
      · exact absurd h (by decide)
      · exact absurd h (by decide)
    unfold Confiar.parseNum
    dsimp only
    rw [pyStripNoWS tok (fun a ha => digitNotWS (hchars a ha)),
      removeCharNone '$' tok
        (fun a ha => digitNeChar (hchars a ha) (by decide) (by decide)),
      removeCharNone '%' tok
        (fun a ha => digitNeChar (hchars a ha) (by decide) (by decide)),
      removeCharNone ' ' tok
        (fun a ha => digitNeChar (hchars a ha) (by decide) (by decide))]
    rw [isEmptyFalse tok hne]
    simp only [decide_eq_false htd, decide_eq_false hnc, decide_eq_false hnm,
      Bool.or_false, Bool.false_or, Bool.false_eq_true, if_false]
    by_cases hopt : Confiar.optDotOneTwoDigits tok = true
    · rw [hopt, if_pos rfl]
      obtain ⟨rest, hrest, hrdig, hrlen⟩ :
          ∃ rest, tok = '.' :: rest ∧ (∀ a ∈ rest, isDig a = true) ∧
            1 ≤ rest.length := by
        match tok, hne with
        | c :: t0, _ =>
          by_cases hc : c = '.'
          · subst hc
            unfold Confiar.optDotOneTwoDigits at hopt
            dsimp only at hopt
            rw [List.headD_cons, if_pos rfl, List.tail_cons] at hopt
            simp only [Bool.and_eq_true, decide_eq_true_eq, List.all_eq_true] at hopt
            exact ⟨t0, rfl, hopt.2, hopt.1.1⟩
          · exfalso
            unfold Confiar.optDotOneTwoDigits at hopt
            dsimp only at hopt
            rw [List.headD_cons, if_neg hc] at hopt
            simp only [Bool.and_eq_true, decide_eq_true_eq, List.all_eq_true] at hopt
            have hmem : '.' ∈ c :: t0 := List.elem_iff.mp hdot
            exact absurd (hopt.2 '.' hmem) (by decide)
      have hdw : tok.dropWhile (· = '.') = rest := by
        rw [hrest, List.dropWhile_cons]
        rw [decide_eq_true (show ('.' : Char) = '.' from rfl)]
        simp only [if_true]
        exact dropWhileAllFalse rest _ (fun a ha =>
          decide_eq_false (fun e => absurd (hrdig a ha) (by rw [e]; decide)))
      rw [hdw]
      rw [if_neg (by
        intro e
        rw [isEmptyFalse rest (by intro e2; rw [e2] at hrlen; simp at hrlen)] at e
        cases e)]
      rw [pyFloatDigits rest hrdig,
        isEmptyFalse rest (by intro e2; rw [e2] at hrlen; simp at hrlen)]
      simp only [Bool.false_eq_true, if_false, if_pos trivial]
    · rw [Bool.not_eq_true] at hopt
      rw [hopt]
      simp only [Bool.false_eq_true, if_false]
      rw [noCommaContains tok hchars, hdot]
      simp only [Bool.false_and, Bool.not_false, Bool.true_and, Bool.and_false,
        Bool.and_true, Bool.false_eq_true, if_false, if_true]
      by_cases hcond : countChar '.' tok = 1 ∧ charsAfterLast '.' tok ≤ 2
      · have e1 : decide (countChar '.' tok > 1) = false := by simp [hcond.1]
        have e2 : decide (charsAfterLast '.' tok > 2) = false :=
          decide_eq_false (not_lt.mpr hcond.2)
        rw [e1, e2]
        simp only [Bool.or_false, Bool.false_eq_true, if_false]
        rw [if_pos hcond]
        exact dotSingleDecimal tok hchars hdot hcond.1
      · have hge : countChar '.' tok ≥ 1 := by
          rw [hsplit, countCharSplit]; omega
        rw [show (decide (countChar '.' tok > 1) ||
            decide (charsAfterLast '.' tok > 2)) = true from by
          rcases Decidable.em (countChar '.' tok = 1) with he | he
          · have hh : charsAfterLast '.' tok > 2 := by
              rcases Nat.lt_or_ge 2 (charsAfterLast '.' tok) with h2 | h2
              · exact h2
              · exact absurd ⟨he, h2⟩ hcond
            simp [hh]
          · have hh : countChar '.' tok > 1 := by omega
            simp [hh]]
        simp only [if_true]
        rw [if_neg hcond]
        exact dotStrippedVal tok hchars

end PdfParser


namespace PdfParser

/-- C6 counterexample: the claim's dot-only rule ("at most two digits
after a single dot makes it the decimal point") is false for
`_parse_mixed_number`: on the dot-only token "3.5" the code strips the
dot (returning 35.0) because it requires exactly two digits after the
dot, while the rule as claimed demands 3.5. -/
theorem claim_C6_counterexample_dot_rule :
    ¬ Spec.DotOnlyClaimHolds OpendataFallback.parseMixedNumber := by
  intro h
  exact absurd (h "3.5".data (by decide)) (by decide)

/-- C6 (amended): locale number normalisation, dot-only rule — for every
dot-only numeric token, `_parse_mixed_number` treats the dot as the
decimal point only when there is exactly one dot with exactly two digits
after it, and otherwise strips every dot as a thousands separator;
`_parse_num` (Confiar) first maps the bare token "." to 0.0 and reads a
token that is an optional dot followed by one or two digits as those
digits with the dot dropped, and otherwise treats a single dot with at
most two digits after it as the decimal point, stripping dots in every
other case ("7.554.272" normalises to 7554272.0 in both). -/
theorem claim_C6_amended_dot_rule :
    (∀ tok : List Char, Spec.DotOnlyToken tok →
      OpendataFallback.parseMixedNumber tok =
        if countChar '.' tok = 1 ∧ charsAfterLast '.' tok = 2
        then Spec.dotAsDecimal tok else Spec.dotsStripped tok) ∧
    (∀ tok : List Char, Spec.DotOnlyToken tok →
      Confiar.parseNum tok =
        if tok = ['.'] then some 0
        else if Confiar.optDotOneTwoDigits tok then
          some (mkRat (digitsNum (tok.dropWhile (· = '.')) : ℕ) 1)
        else if countChar '.' tok = 1 ∧ charsAfterLast '.' tok ≤ 2
        then Spec.dotAsDecimal tok else Spec.dotsStripped tok) ∧
    OpendataFallback.parseMixedNumber "3.5".data = some 35 ∧
    Confiar.parseNum "3.5".data = some (mkRat 7 2) ∧
    Confiar.parseNum ".45".data = some 45 ∧
    OpendataFallback.parseMixedNumber "7.554.272".data = some 7554272 ∧
    Confiar.parseNum "7.554.272".data = some 7554272 ∧
    OpendataFallback.parseMixedNumber "24.02".data = some (mkRat 2402 100) ∧
    Confiar.parseNum "24.02".data = some (mkRat 2402 100) :=
  ⟨mixedPartA, numPartB, by decide, by decide, by decide, by decide,
    by decide, by decide, by decide⟩

/-- C6 witness: the amended dot-only rule applied at the concrete token
"9.876.543" (three dots, so both normalisers strip them). -/
theorem claim_C6_amended_witness :
    OpendataFallback.parseMixedNumber "9.876.543".data =
      (if countChar '.' "9.876.543".data = 1 ∧
          charsAfterLast '.' "9.876.543".data = 2
       then Spec.dotAsDecimal "9.876.543".data
       else Spec.dotsStripped "9.876.543".data) ∧
    Confiar.parseNum "9.876.543".data =
      (if "9.876.543".data = ['.'] then some 0
       else if Confiar.optDotOneTwoDigits "9.876.543".data then
         some (mkRat (digitsNum ("9.876.543".data.dropWhile (· = '.')) : ℕ) 1)
       else if countChar '.' "9.876.543".data = 1 ∧
          charsAfterLast '.' "9.876.543".data ≤ 2
       then Spec.dotAsDecimal "9.876.543".data
       else Spec.dotsStripped "9.876.543".data) :=
  ⟨claim_C6_amended_dot_rule.1 "9.876.543".data (by decide),
   claim_C6_amended_dot_rule.2.1 "9.876.543".data (by decide)⟩

end PdfParser

namespace PdfParser

theorem insertDescHead (x : ℕ × DetectorEntry) (acc : List (ℕ × DetectorEntry)) :
    (insertDesc x acc).head? =
      some (match acc.head? with
            | none => x
            | some y => pickOlder y x) := by
  match acc with
  | [] => rfl
  | y :: ys =>
    simp only [insertDesc, List.head?_cons, pickOlder]
    split
    · rfl
    · rfl

theorem sortFoldHead (l : List (ℕ × DetectorEntry)) :
    ∀ acc, ((l.foldl (fun a x => insertDesc x a) acc).head?) =
      l.foldl (fun b x =>
        some (match b with | none => x | some y => pickOlder y x)) acc.head? := by
  induction l with
  | nil => intro acc; rfl
  | cons x xs ih =>
    intro acc
    simp only [List.foldl_cons]
    rw [ih (insertDesc x acc), insertDescHead]

theorem sortHeadFirstMax (l : List (ℕ × DetectorEntry)) :
    (pyStableSortDesc l).head? = firstMaxFold l := by
  unfold pyStableSortDesc firstMaxFold
  rw [sortFoldHead l []]
  match l with
  | [] => rfl
  | x :: xs =>
    simp only [List.head?_nil, List.foldl_cons]
    have : ∀ (ys : List (ℕ × DetectorEntry)) (seed : ℕ × DetectorEntry),
        ys.foldl (fun b x =>
          some (match b with | none => x | some y => pickOlder y x)) (some seed) =
        some (ys.foldl pickOlder seed) := by
      intro ys
      induction ys with
      | nil => intro seed; rfl
      | cons z zs ihz => intro seed; simp only [List.foldl_cons]; exact ihz _
    exact this xs x

theorem foldPickSplit :
    ∀ (xs : List (ℕ × DetectorEntry)) (x r : ℕ × DetectorEntry),
      xs.foldl pickOlder x = r →
      ∃ pre post, x :: xs = pre ++ r :: post ∧
        (∀ y ∈ pre, y.1 < r.1) ∧ (∀ y ∈ x :: xs, y.1 ≤ r.1) := by
  intro xs
  induction xs with
  | nil =>
    intro x r h
    simp only [List.foldl_nil] at h
    subst h
    exact ⟨[], [], rfl, by simp, by simp⟩
  | cons z zs ih =>
    intro x r h
    simp only [List.foldl_cons] at h
    rcases ih (pickOlder x z) r h with ⟨pre, post, hsplit, hlt, hle⟩
    by_cases hzx : x.1 ≥ z.1
    · rw [show pickOlder x z = x from by simp [pickOlder, hzx]] at hsplit hle
      match pre, hsplit with
      | [], hs =>
        have hs2 := hs
        simp only [List.nil_append, List.cons.injEq] at hs2
        have hrx : r.1 = x.1 := by rw [hs2.1]
        refine ⟨[], z :: zs, by rw [hs2.1.symm]; simp, by simp, ?_⟩
        intro w hw
        rcases List.mem_cons.mp hw with e | hw2
        · rw [e, hrx]
        · rcases List.mem_cons.mp hw2 with e | hw3
          · have hx : x.1 ≤ r.1 := hle x (by simp)
            rw [e]; omega
          · exact hle w (by simp [hw3])
      | p :: mid, hs =>
        simp only [List.cons_append, List.cons.injEq] at hs
        obtain ⟨hxp, hzsmid⟩ := hs
        have hxlt : x.1 < r.1 := by
          have := hlt p (by simp)
          rw [← hxp] at this
          exact this
        refine ⟨x :: z :: mid, post, ?_, ?_, ?_⟩
        · rw [hzsmid]; simp
        · intro w hw
          rcases List.mem_cons.mp hw with e | hw2
          · rw [e]; exact hxlt
          · rcases List.mem_cons.mp hw2 with e | hw3
            · rw [e]; omega
            · exact hlt w (by simp [hw3])
        · intro w hw
          rcases List.mem_cons.mp hw with e | hw2
          · rw [e]; exact hle x (by simp)
          · rcases List.mem_cons.mp hw2 with e | hw3
            · rw [e]; omega
            · exact hle w (by simp [hw3])
    · rw [show pickOlder x z = z from by simp [pickOlder, hzx]] at hsplit hle
      have hzle : z.1 ≤ r.1 := hle z (by simp)
      match pre, hsplit with
      | [], hs =>
        have hs2 := hs
        simp only [List.nil_append, List.cons.injEq] at hs2
        have hrz : r.1 = z.1 := by rw [hs2.1]
        refine ⟨[x], zs, by rw [hs2.1.symm]; simp, ?_, ?_⟩
        · intro w hw
          rw [List.mem_singleton.mp hw, hrz]
          omega
        · intro w hw
          rcases List.mem_cons.mp hw with e | hw2
          · rw [e, hrz]; omega
          · rcases List.mem_cons.mp hw2 with e | hw3
            · rw [e]; omega
            · exact hle w (by simp [hw3])
      | p :: mid, hs =>
        simp only [List.cons_append, List.cons.injEq] at hs
        obtain ⟨hzp, hzsmid⟩ := hs
        have hzlt : z.1 < r.1 := by
          have := hlt p (by simp)
          rw [← hzp] at this
          exact this
        refine ⟨x :: z :: mid, post, ?_, ?_, ?_⟩
        · rw [hzsmid]; simp
        · intro w hw
          rcases List.mem_cons.mp hw with e | hw2
          · rw [e]; omega
          · rcases List.mem_cons.mp hw2 with e | hw3
            · rw [e]; exact hzlt
            · exact hlt w (by simp [hw3])
        · intro w hw
          rcases List.mem_cons.mp hw with e | hw2
          · rw [e]; omega
          · rcases List.mem_cons.mp hw2 with e | hw3
            · rw [e]; exact hzle
            · exact hle w (by simp [hw3])

theorem firstMaxSplit (l : List (ℕ × DetectorEntry)) (r : ℕ × DetectorEntry)
    (h : firstMaxFold l = some r) :
    ∃ pre post, l = pre ++ r :: post ∧
      (∀ y ∈ pre, y.1 < r.1) ∧ (∀ y ∈ l, y.1 ≤ r.1) := by
  match l, h with
  | x :: xs, h =>
    have h2 : xs.foldl pickOlder x = r := by
      simpa [firstMaxFold] using h
    exact foldPickSplit xs x r h2

/-- Members of the scored-and-filtered candidate list are score pairs of
registered detectors with positive score. -/
theorem mem_scored (sc : DetectorEntry → ℕ) (L : List DetectorEntry)
    (y1 : ℕ) (y2 : DetectorEntry)
    (h : (y1, y2) ∈ (L.map (fun d => (sc d, d))).filter (fun sd => sd.1 > 0)) :
    y1 = sc y2 ∧ y2 ∈ L ∧ 0 < y1 := by
  rcases List.mem_filter.mp h with ⟨hm, hp⟩
  rcases List.mem_map.mp hm with ⟨d, hd, he⟩
  rw [Prod.mk.injEq] at he
  obtain ⟨h1, h2⟩ := he
  subst h1
  subst h2
  refine ⟨rfl, hd, ?_⟩
  simpa using hp

/-- A split of the scored-and-filtered list at an entry of positive score
whose left part scores strictly lower lifts back to a split of the
registry: every earlier-registered detector (kept or filtered out)
scores strictly lower. -/
theorem liftSplit (sc : DetectorEntry → ℕ) :
    ∀ (L : List DetectorEntry) (preS postS : List (ℕ × DetectorEntry))
      (b1 : ℕ) (b2 : DetectorEntry),
      (L.map (fun d => (sc d, d))).filter (fun sd => sd.1 > 0) =
        preS ++ (b1, b2) :: postS →
      (∀ y ∈ preS, y.1 < b1) → 0 < b1 →
      ∃ pre post, L = pre ++ b2 :: post ∧ sc b2 = b1 ∧
        ∀ d ∈ pre, sc d < b1 := by
  intro L
  induction L with
  | nil =>
    intro preS postS b1 b2 h hlt hpos
    simp only [List.map_nil, List.filter_nil] at h
    exact absurd (congrArg List.length h) (by simp; omega)
  | cons d L ih =>
    intro preS postS b1 b2 h hlt hpos
    by_cases hd : 0 < sc d
    · rw [show ((d :: L).map (fun x => (sc x, x))).filter (fun sd => sd.1 > 0) =
          (sc d, d) :: ((L.map (fun x => (sc x, x))).filter (fun sd => sd.1 > 0))
        from by simp [List.filter_cons, hd]] at h
      match preS, h with
      | [], h =>
        simp only [List.nil_append, List.cons.injEq, Prod.mk.injEq] at h
        obtain ⟨⟨hb1, hb2⟩, _⟩ := h
        subst hb2
        exact ⟨[], L, by simp, hb1, by simp⟩
      | q :: preS2, h =>
        simp only [List.cons_append, List.cons.injEq] at h
        obtain ⟨hq, hrest⟩ := h
        have hdlt : sc d < b1 := by
          have := hlt q (by simp)
          rw [← hq] at this
          exact this
        obtain ⟨pre, post, hL, hsc, hpre⟩ :=
          ih preS2 postS b1 b2 hrest (fun y hy => hlt y (by simp [hy])) hpos
        refine ⟨d :: pre, post, by rw [hL]; simp, hsc, ?_⟩
        intro w hw
        rcases List.mem_cons.mp hw with e | hw2
        · rw [e]; exact hdlt
        · exact hpre w hw2
    · rw [show ((d :: L).map (fun x => (sc x, x))).filter (fun sd => sd.1 > 0) =
          (L.map (fun x => (sc x, x))).filter (fun sd => sd.1 > 0)
        from by simp [List.filter_cons, hd]] at h
      obtain ⟨pre, post, hL, hsc, hpre⟩ := ih preS postS b1 b2 h hlt hpos
      refine ⟨d :: pre, post, by rw [hL]; simp, hsc, ?_⟩
      intro w hw
      rcases List.mem_cons.mp hw with e | hw2
      · rw [e]; omega
      · exact hpre w hw2

/-- `detectFromSample` unfolded to its selection shape. -/
theorem detectFromSample_eq (t : List Char) :
    detectFromSample t =
      match pyStableSortDesc ((DETECTORS.map
          (fun d => (score d (pyUpper t), d))).filter (fun sd => sd.1 > 0)) with
      | [] => .error .noSignal
      | (bestScore, best) :: _ =>
          if bestScore < MIN_CONFIDENCE then
            .error (.lowConfidence best.name bestScore)
          else .ok best := rfl

/-- What a successful detection guarantees: the selected entry is
registered, scores at least `MIN_CONFIDENCE`, at least every registered
entry's score, and strictly more than every earlier-registered entry. -/
theorem detectOkFacts (t : List Char) (best : DetectorEntry)
    (hok : detectFromSample t = .ok best) :
    best ∈ DETECTORS ∧
    MIN_CONFIDENCE ≤ score best (pyUpper t) ∧
    (∀ d ∈ DETECTORS, score d (pyUpper t) ≤ score best (pyUpper t)) ∧
    ∃ pre post, DETECTORS = pre ++ best :: post ∧
      ∀ d ∈ pre, score d (pyUpper t) < score best (pyUpper t) := by
  rw [detectFromSample_eq] at hok
  rcases hsort : pyStableSortDesc ((DETECTORS.map
      (fun d => (score d (pyUpper t), d))).filter (fun sd => sd.1 > 0)) with
    _ | ⟨⟨bs, b⟩, rest⟩
  · rw [hsort] at hok
    have hok2 : (Except.error DetectError.noSignal :
        Except DetectError DetectorEntry) = Except.ok best := hok
    exact Except.noConfusion hok2
  · rw [hsort] at hok
    have hok2 : (if bs < MIN_CONFIDENCE then
        (Except.error (DetectError.lowConfidence b.name bs) :
          Except DetectError DetectorEntry)
        else Except.ok b) = Except.ok best := hok
    by_cases hbs : bs < MIN_CONFIDENCE
    · rw [if_pos hbs] at hok2
      exact Except.noConfusion hok2
    · rw [if_neg hbs] at hok2
      have hbb : b = best := Except.ok.inj hok2
      subst hbb
      have hhead : firstMaxFold ((DETECTORS.map
          (fun d => (score d (pyUpper t), d))).filter (fun sd => sd.1 > 0)) =
          some (bs, b) := by
        rw [← sortHeadFirstMax, hsort]
        rfl
      obtain ⟨preS, postS, hS, hltS, hleS⟩ := firstMaxSplit _ _ hhead
      have hmem : (bs, b) ∈ (DETECTORS.map
          (fun d => (score d (pyUpper t), d))).filter (fun sd => sd.1 > 0) := by
        rw [hS]; simp
      obtain ⟨hb1, hbmem, hbpos⟩ :=
        mem_scored (fun d => score d (pyUpper t)) DETECTORS bs b hmem
      refine ⟨hbmem, ?_, ?_, ?_⟩
      · have h6 : MIN_CONFIDENCE ≤ bs := Nat.le_of_not_lt hbs
        rw [hb1] at h6
        exact h6
      · intro d hd
        rcases Nat.eq_zero_or_pos (score d (pyUpper t)) with hz | hp
        · rw [hz]; exact Nat.zero_le _
        · have hin : (score d (pyUpper t), d) ∈ (DETECTORS.map
              (fun x => (score x (pyUpper t), x))).filter (fun sd => sd.1 > 0) :=
            List.mem_filter.mpr ⟨List.mem_map.mpr ⟨d, hd, rfl⟩, by simpa using hp⟩
          have := hleS _ hin
          dsimp only at this
          rw [← hb1]
          exact this
      · obtain ⟨pre, post, hL, hscb, hpre⟩ :=
          liftSplit (fun d => score d (pyUpper t)) DETECTORS preS postS bs b
            hS (fun y hy => hltS y hy) hbpos
        refine ⟨pre, post, hL, ?_⟩
        intro d hd
        have := hpre d hd
        rw [← hscb] at this
        exact this

end PdfParser

namespace PdfParser

/-- C2: for every sample text, `detect_and_parse`'s detection stage
assigns each registered profile the sum of the weights of its signals
whose predicate fires on the uppercased sample; whenever it selects a
profile, that profile is registered, scores at least the threshold
`MIN_CONFIDENCE = 6`, scores at least as much as every registered
profile, and scores strictly more than every profile registered before
it (so an exact tie is broken in favour of the earlier-registered
profile); and whenever every profile scores below the threshold — in
particular when only one weight-3 signal fires — it raises a
detection error instead of selecting a profile. -/
theorem claim_C2_detector_scoring :
    ∀ (t : List Char),
      (∀ d ∈ DETECTORS, score d (pyUpper t) =
        ((d.signals.filter (fun ws => ws.2 (pyUpper t))).map
          (fun ws => ws.1)).sum) ∧
      (∀ best, detectFromSample t = .ok best →
        best ∈ DETECTORS ∧
        MIN_CONFIDENCE ≤ score best (pyUpper t) ∧
        (∀ d ∈ DETECTORS, score d (pyUpper t) ≤ score best (pyUpper t)) ∧
        ∃ pre post, DETECTORS = pre ++ best :: post ∧
          ∀ d ∈ pre, score d (pyUpper t) < score best (pyUpper t)) ∧
      ((∀ d ∈ DETECTORS, score d (pyUpper t) < MIN_CONFIDENCE) →
        ∃ e, detectFromSample t = .error e) := by
  intro t
  refine ⟨fun d _ => rfl, fun best hok => detectOkFacts t best hok, ?_⟩
  intro hall
  match h : detectFromSample t with
  | .error e => exact ⟨e, rfl⟩
  | .ok best =>
    obtain ⟨hbmem, h6, _, _⟩ := detectOkFacts t best h
    exact absurd (hall best hbmem) (Nat.not_lt.mpr h6)

end PdfParser

namespace PdfParser

/-- C9: the amount-is-absolute invariant fails in the Bogotá credit-card
parser: on the stripped transaction line
`"1 COMPRA X 01/01/2025 01/01/2025 00 -5 0.0 0 00 0"` the per-line
extraction of `parse_bogota_credit_card` builds a `ParsedTransaction`
whose amount is `-5 < 0` — the code stores `_parse_us_number(nums[1])`
with no absolute value — contradicting `models.py`'s declaration that
`amount` is always positive with sign carried only by `direction`. -/
theorem claim_C9_negative_amount :
    ∃ tx, Bogota.txFromLine
        "1 COMPRA X 01/01/2025 01/01/2025 00 -5 0.0 0 00 0".data = some tx ∧
      tx.amount < 0 :=
  ⟨⟨⟨2025, 1, 1⟩, "COMPRA X", -(mkRat 5 1), .outflow, some (mkRat 0 1),
    "COP", some "1", none, none⟩, by decide, by decide⟩

end PdfParser

namespace PdfParser

/-- C10: every transaction built by the Falabella and Bancolombia
credit-card parsers has `installment_current = none` and
`installment_total = none`: the matched installment text is passed to
the constructor under the undeclared keyword `installments`, which
pydantic discards.  The last two conjuncts show lines whose installment
text (`"4 de 6"`, `"1/24"`) is matched and passed, yet absent from the
resulting transaction. -/
theorem claim_C10_installments_discarded :
    (∀ line tx, Falabella.txLine line = some tx →
      tx.installment_current = none ∧ tx.installment_total = none) ∧
    (∀ line currency tx, BancolombiaCC.parseTransactionLine line currency = some tx →
      tx.installment_current = none ∧ tx.installment_total = none) ∧
    (∃ a, Falabella.txArgs
        "14/10/2025 FALABELLA COM S A S CL 99 1 T $1.969.900,00 4 de 6 24,34% $328.316,66 $656.633,36".data =
          some a ∧
      a.installments = some "4 de 6" ∧
      (Falabella.txLine
        "14/10/2025 FALABELLA COM S A S CL 99 1 T $1.969.900,00 4 de 6 24,34% $328.316,66 $656.633,36".data).isSome) ∧
    (∃ a, BancolombiaCC.parseTxArgs
        "T00265 29/09/2025 DLO*GOOGLE Archero $ 66.000,00 1/24 $ 66.000,00 0,0000 % 00,0000 % $ 0,00".data =
          some a ∧
      a.installments = some "1/24" ∧
      (BancolombiaCC.parseTransactionLine
        "T00265 29/09/2025 DLO*GOOGLE Archero $ 66.000,00 1/24 $ 66.000,00 0,0000 % 00,0000 % $ 0,00".data
        "COP").isSome) := by
  refine ⟨?_, ?_, ?_, ?_⟩
  · intro line tx h
    obtain ⟨a, _, rfl⟩ := Option.map_eq_some'.mp h
    exact ⟨rfl, rfl⟩
  · intro line currency tx h
    obtain ⟨a, _, rfl⟩ := Option.map_eq_some'.mp h
    exact ⟨rfl, rfl⟩
  · exact ⟨⟨⟨2025, 10, 14⟩, "FALABELLA COM S A S CL 99 1", mkRat 1969900 1,
      .outflow, some "4 de 6"⟩, by decide, by decide, by decide⟩
  · exact ⟨⟨⟨2025, 9, 29⟩, "DLO*GOOGLE Archero", mkRat 66000 1,
      some (mkRat 0 1), some "T00265", some "1/24"⟩, by decide, by decide, by decide⟩

end PdfParser

namespace PdfParser

/-- C3: `detect_and_parse` does not keep to the claimed failure taxonomy:
the registry's savings and Bancolombia credit-card entries have parse
lambdas that pass `password=pw` to target functions whose signatures
declare no `password` parameter, so Python raises `TypeError` — not one
of the typed failures — instead of returning statements; a document
firing the Bancolombia credit-card signals is detected successfully and
then routed into that call. -/
theorem claim_C3_password_kw :
    (∀ d ∈ DETECTORS, (d.name = "bancolombia_savings" ∨
        d.name = "bancolombia_credit_card") → d.targetAcceptsPassword = false) ∧
    Except.toOption ((detectSelect
        ["BANCOLOMBIA\nTARJETA: ****1234\nESTADO DE CUENTA EN : PESOS\nNuevos movimientos"]
        "").map (fun e => (e.name, e.targetAcceptsPassword))) =
      some ("bancolombia_credit_card", false) :=
  ⟨by decide, by decide⟩

end PdfParser

namespace PdfParser

/-- C1: detection on the claimed savings sample selects the
`bancolombia_savings` profile, whose parse lambda passes `password=pw`
to `parse_savings` — a function with no `password` parameter
(`targetAcceptsPassword = false`), so the pipeline raises `TypeError`
before any statement is returned.  `parse_savings` itself, applied to
the document, would return exactly the claimed statement: period from
2025-12-01, one transaction dated 2026-01-15 of amount 1000.0, direction
INFLOW, balance 5000.0, and final balance 5000.0. -/
theorem claim_C1_savings_end_to_end :
    Except.toOption ((detectSelect [BancolombiaSavings.c1Page] "").map
      (fun e => (e.name, e.targetAcceptsPassword))) =
      some ("bancolombia_savings", false) ∧
    BancolombiaSavings.parseSavings 2026 [BancolombiaSavings.c1Page.data] =
      some { bank := "bancolombia", statement_type := .savings,
             account_number := some "12345678901",
             period_from := some ⟨2025, 12, 1⟩,
             period_to := some ⟨2026, 1, 31⟩,
             currency := "COP",
             summary := some { previous_balance := some (mkRat 4000 1),
                               final_balance := some (mkRat 5000 1) },
             transactions := [{ date := ⟨2026, 1, 15⟩,
                                description := "PAGO NOMINA",
                                amount := mkRat 1000 1,
                                direction := .inflow,
                                balance := some (mkRat 5000 1) }] } :=
  ⟨by decide, by decide⟩

end PdfParser

namespace PdfParser

set_option maxHeartbeats 2000000 in
/-- C4: for a document whose first page carries no currency marker,
whose second declares PESOS and whose third DOLARES (the claim's
pre-marker page plus the two marked pages), `parse_credit_card` returns
exactly two statements: a COP one whose transactions come from the
PESOS page alone and a USD one whose transactions come from the DOLARES
page alone; the pre-marker page joins no section, and the card number
may still be supplied by it (the card scan takes the first page's hit
when there is one). -/
theorem claim_C4_currency_split (p0 p1 p2 : List Char)
    (per1 per2 : Option PyDate × Option PyDate)
    (m1 : CreditCardMetadata) (s1 : StatementSummary)
    (m2 : CreditCardMetadata) (s2 : StatementSummary)
    (h0 : BancolombiaCC.detectCurrency p0 = none)
    (h1 : BancolombiaCC.detectCurrency p1 = some "COP")
    (h2 : BancolombiaCC.detectCurrency p2 = some "USD")
    (hp1 : BancolombiaCC.parsePeriod p1 = some per1)
    (hp2 : BancolombiaCC.parsePeriod p2 = some per2)
    (hm1 : BancolombiaCC.extractMetadataCC [p1] = some (m1, s1))
    (hm2 : BancolombiaCC.extractMetadataCC [p2] = some (m2, s2)) :
    BancolombiaCC.parseCreditCard [p0, p1, p2] = some
      [⟨"bancolombia", .credit_card, none,
        (BancolombiaCC.cardScan [p0, p1, p2]).map String.mk,
        per1.1, per1.2, "COP", some s1, some m1, none,
        BancolombiaCC.sectionTransactions "COP" [p1]⟩,
       ⟨"bancolombia", .credit_card, none,
        (BancolombiaCC.cardScan [p0, p1, p2]).map String.mk,
        per2.1, per2.2, "USD", some s2, some m2, none,
        BancolombiaCC.sectionTransactions "USD" [p2]⟩] ∧
    (∀ c, BancolombiaCC.searchCardNumber p0 = some c →
      BancolombiaCC.cardScan [p0, p1, p2] = some c) := by
  constructor
  · rcases hc0 : BancolombiaCC.searchCardNumber p0 with _ | c0
    · rcases hc1 : BancolombiaCC.searchCardNumber p1 with _ | c1
      · simp [BancolombiaCC.parseCreditCard, BancolombiaCC.groupPages,
          BancolombiaCC.buildResults, BancolombiaCC.cardScan,
          BancolombiaCC.hasKey, BancolombiaCC.appendText,
          h0, h1, h2, hc0, hc1, hp1, hp2, hm1, hm2, Option.bind]
        try cases BancolombiaCC.searchCardNumber p2 <;> rfl
      · simp [BancolombiaCC.parseCreditCard, BancolombiaCC.groupPages,
          BancolombiaCC.buildResults, BancolombiaCC.cardScan,
          BancolombiaCC.hasKey, BancolombiaCC.appendText,
          h0, h1, h2, hc0, hc1, hp1, hp2, hm1, hm2, Option.bind]
    · simp [BancolombiaCC.parseCreditCard, BancolombiaCC.groupPages,
        BancolombiaCC.buildResults, BancolombiaCC.cardScan,
        BancolombiaCC.hasKey, BancolombiaCC.appendText,
        h0, h1, h2, hc0, hp1, hp2, hm1, hm2, Option.bind]
  · intro c hc
    simp [BancolombiaCC.cardScan, hc]

/-- C4 witness: the three-page witness document instantiates the
currency-splitting theorem, all hypotheses checked by evaluation. -/
theorem claim_C4_currency_split_witness :
    BancolombiaCC.parseCreditCard
      [BancolombiaCC.c4p0.data, BancolombiaCC.c4p1.data,
       BancolombiaCC.c4p2.data] = some
      [⟨"bancolombia", .credit_card, none,
        (BancolombiaCC.cardScan [BancolombiaCC.c4p0.data,
          BancolombiaCC.c4p1.data, BancolombiaCC.c4p2.data]).map String.mk,
        none, none, "COP", some {}, some {}, none,
        BancolombiaCC.sectionTransactions "COP" [BancolombiaCC.c4p1.data]⟩,
       ⟨"bancolombia", .credit_card, none,
        (BancolombiaCC.cardScan [BancolombiaCC.c4p0.data,
          BancolombiaCC.c4p1.data, BancolombiaCC.c4p2.data]).map String.mk,
        none, none, "USD", some {}, some {}, none,
        BancolombiaCC.sectionTransactions "USD" [BancolombiaCC.c4p2.data]⟩] ∧
    (∀ c, BancolombiaCC.searchCardNumber BancolombiaCC.c4p0.data = some c →
      BancolombiaCC.cardScan [BancolombiaCC.c4p0.data,
        BancolombiaCC.c4p1.data, BancolombiaCC.c4p2.data] = some c) :=
  claim_C4_currency_split BancolombiaCC.c4p0.data BancolombiaCC.c4p1.data
    BancolombiaCC.c4p2.data (none, none) (none, none) {} {} {} {}
    (by decide) (by decide) (by decide) (by decide) (by decide)
    (by decide) (by decide)

end PdfParser

namespace PdfParser

/-- C8: whenever the generic fallback's `_build_statements_from_text`
returns normally with a non-empty list, that list is a single statement
holding at least one transaction or one non-empty metadata record
(summary, credit-card or loan metadata); and the caller's gate maps an
empty list to `None` (failure) rather than an empty successful
statement. -/
theorem claim_C8_fallback_gate (todayYear : ℕ) (text : List Char)
    (res : List ParsedStatement)
    (h : OpendataFallback.buildStatementsFromText todayYear text = some res) :
    (res ≠ [] → ∃ st, res = [st] ∧
      (st.transactions ≠ [] ∨ st.summary.isSome ∨
       st.credit_card_metadata.isSome ∨ st.loan_metadata.isSome)) ∧
    (OpendataFallback.tryParseGate res = none ↔ res = []) := by
  constructor
  · intro hne
    unfold OpendataFallback.buildStatementsFromText at h
    split at h
    · obtain rfl : ([] : List ParsedStatement) = res := by injection h
      exact absurd rfl hne
    · obtain ⟨txs, htx, h⟩ := Option.bind_eq_some.mp h
      obtain ⟨sm, hsm, h⟩ := Option.bind_eq_some.mp h
      obtain ⟨cr, hcr, h⟩ := Option.bind_eq_some.mp h
      obtain ⟨ln, hln, h⟩ := Option.bind_eq_some.mp h
      unfold OpendataFallback.gatherOD at h
      split at h
      · obtain rfl : ([] : List ParsedStatement) = res := by injection h
        exact absurd rfl hne
      · next hcond =>
        obtain rfl := (Option.some.inj h).symm
        refine ⟨_, rfl, ?_⟩
        rcases txs with _ | ⟨t, ts⟩
        · by_cases hb : (sm.isSome ||
              (OpendataFallback.creditOf text cr).isSome ||
              (OpendataFallback.loanOf text ln).isSome) = true
          · right
            simp only [Bool.or_eq_true] at hb
            rcases hb with (h1 | h2) | h3
            · exact Or.inl h1
            · exact Or.inr (Or.inl h2)
            · exact Or.inr (Or.inr h3)
          · exfalso
            rw [Bool.not_eq_true] at hb
            exact hcond (by simp [hb])
        · exact Or.inl (by simp)
  · cases res <;> simp [OpendataFallback.tryParseGate]

/-- C8 witness: the witness text yields one statement with a
transaction and an account number, instantiating the gate theorem. -/
theorem claim_C8_fallback_gate_witness :
    (([⟨"unknown_bank", StatementType.savings, some "123456", none, none,
        none, "COP", none, none, none,
        [⟨⟨2025, 1, 15⟩, "PAGO NOMINA", mkRat 1000 1,
          TransactionDirection.inflow, none, "COP", none, none, none⟩]⟩] :
      List ParsedStatement) ≠ [] →
      ∃ st, ([⟨"unknown_bank", StatementType.savings, some "123456", none,
        none, none, "COP", none, none, none,
        [⟨⟨2025, 1, 15⟩, "PAGO NOMINA", mkRat 1000 1,
          TransactionDirection.inflow, none, "COP", none, none, none⟩]⟩] :
        List ParsedStatement) = [st] ∧
        (st.transactions ≠ [] ∨ st.summary.isSome ∨
         st.credit_card_metadata.isSome ∨ st.loan_metadata.isSome)) ∧
    (OpendataFallback.tryParseGate
      [⟨"unknown_bank", StatementType.savings, some "123456", none, none,
        none, "COP", none, none, none,
        [⟨⟨2025, 1, 15⟩, "PAGO NOMINA", mkRat 1000 1,
          TransactionDirection.inflow, none, "COP", none, none, none⟩]⟩] =
      none ↔
      ([⟨"unknown_bank", StatementType.savings, some "123456", none, none,
        none, "COP", none, none, none,
        [⟨⟨2025, 1, 15⟩, "PAGO NOMINA", mkRat 1000 1,
          TransactionDirection.inflow, none, "COP", none, none, none⟩]⟩] :
        List ParsedStatement) = []) :=
  claim_C8_fallback_gate 2026 OpendataFallback.c8text.data
    [⟨"unknown_bank", StatementType.savings, some "123456", none, none,
      none, "COP", none, none, none,
      [⟨⟨2025, 1, 15⟩, "PAGO NOMINA", mkRat 1000 1,
        TransactionDirection.inflow, none, "COP", none, none, none⟩]⟩]
    (by decide)

end PdfParser
